import Mathlib

/-!
# extended-worker: a shallow embedding

The three source files are embedded one namespace each:

* `MakeWorker`  : `src/makeWorker.js`, the worker-side dispatcher
  (`Contexts`, `State`, `SubWorkers`, the `handlers` registry, `onmessage`);
* `UseWorker`   : `src/useWorker.js`, the controller-side handle (`ExtendedWorker`);
* `AutoWorkerJs`: `src/autoWorker.js`, the task queue (`AsyncQueue`) and the
  façade (`AutoWorker`).

JavaScript objects keyed by integers are association lists, closures are
represented by the data they capture, promises by their fate, and callbacks
that the code calls are recorded in event logs.  Counters are natural numbers
(the source uses JavaScript numbers, exact up to 2^53).
-/

/-- JavaScript values that travel in messages, are thrown or are returned.
`names` is an array of strings, `tagged` an object `{ type, v }`, `ref` an
object that the code does not look into, `emptyArray` and `array head tail`
build the other arrays, and `request` is the object that
`SubWorkers.callMethod` gives to `askMainThread`. -/
inductive Val where
  | undefined
  | null
  | bool (b : Bool)
  | num (n : Int)
  | str (s : String)
  | exn (kind : String)
  | names (xs : List String)
  | tagged (type : String) (v : Val)
  | ref (name : String)
  | emptyArray
  | array (head : Val) (tail : Val)
  | request (requestName : String) (contextId requestId : Nat)
      (workerPath methodName : String) (args : Val)
  deriving DecidableEq, Repr

namespace Val

/-- JavaScript truthiness, as tested by `if (error)`, `if (err)`, `result ? .. : ..`. -/
def truthy : Val → Bool
  | undefined => false
  | null => false
  | bool b => b
  | num n => decide (n ≠ 0)
  | str s => decide (s ≠ "")
  | exn _ => true
  | names _ => true
  | tagged _ _ => true
  | ref _ => true
  | emptyArray => true
  | array _ _ => true
  | request _ _ _ _ _ _ => true

/-- The `TypeError` raised by the runtime on a call or a property read of `undefined`. -/
def typeError : Val := exn "TypeError"

end Val

/-- How a promise ends: it fulfils, it rejects, or it never settles. -/
inductive Fate where
  | fulfils (v : Val)
  | rejects (e : Val)
  | pending
  deriving DecidableEq, Repr

/-- What a call of a JavaScript function does: it throws synchronously, it
returns a value that is not a thenable, or it returns a promise. -/
inductive Completion where
  | throws (e : Val)
  | value (v : Val)
  | promise (p : Fate)
  deriving DecidableEq, Repr

/-- How a promise built by `new Promise((resolve, reject) => ..)` was settled. -/
inductive Settlement where
  | resolved (v : Val)
  | rejected (e : Val)
  deriving DecidableEq, Repr

/-- Request message, controller to worker (and the `data` of `onmessage`).
A field that is absent reads as `undefined`. -/
structure Request where
  activityName : Option String := none
  callId : Option Nat := none
  contextId : Option Nat := none
  methodName : Option String := none
  args : List Val := []
  listenerId : Option Nat := none
  requestId : Option Nat := none
  requestName : Option String := none
  result : Val := Val.undefined
  error : Val := Val.undefined
  deriving DecidableEq, Repr

/-- Message posted by the worker: `{ callId, result }` or `{ callId, error }`;
the field that is not written reads as `undefined`. -/
structure Reply where
  callId : Option Nat
  result : Val
  error : Val
  deriving DecidableEq, Repr

/-- Embeds `postMessage({ callId, result })`. -/
def Reply.ofResult (callId : Option Nat) (result : Val) : Reply :=
  { callId := callId, result := result, error := Val.undefined }

/-- Embeds `postMessage({ callId, error })`. -/
def Reply.ofError (callId : Option Nat) (error : Val) : Reply :=
  { callId := callId, result := Val.undefined, error := error }

/-- Embeds `obj[key]` on an object keyed by integers. -/
def lookupKey {β : Type} (key : Nat) : List (Nat × β) → Option β
  | [] => none
  | (k, v) :: rest => if k = key then some v else lookupKey key rest

/-- Embeds `delete obj[key]`. -/
def deleteKey {β : Type} (key : Nat) (obj : List (Nat × β)) : List (Nat × β) :=
  obj.filter (fun kv => decide (kv.1 ≠ key))

/-- Embeds `obj[key] = v`: overwrite in place, or append a new property. The
program only adds keys taken from an increasing counter, so the order of the
list is the ascending order in which JavaScript enumerates integer keys. -/
def assignKey {β : Type} (key : Nat) (v : β) : List (Nat × β) → List (Nat × β)
  | [] => [(key, v)]
  | (k, w) :: rest => if k = key then (k, v) :: rest else (k, w) :: assignKey key v rest

namespace MakeWorker

/-- Class `State`: the published value, the listener table and the id counter.
`L` stands for the listener callbacks. -/
structure State (L : Type) where
  publicState : Val
  listeners : List (Nat × L)
  listenerId : Nat

/-- Embeds `new State()`. -/
def State.new {L : Type} : State L :=
  { publicState := Val.ref "empty object", listeners := [], listenerId := 0 }

/-- Embeds `State.setPublicState(getNewState)`: returns the new state and the calls
`listener(this.publicState)` in the order of the `for .. in` loop. -/
def State.setPublicState {L : Type} (s : State L) (getNewState : Val → Val) :
    State L × List (L × Val) :=
  let publicState := getNewState s.publicState
  ({ s with publicState := publicState }, s.listeners.map (fun kv => (kv.2, publicState)))

/-- Embeds `State.addPublicStateListener(listener)`. -/
def State.addPublicStateListener {L : Type} (s : State L) (listener : L) : State L × Nat :=
  let listenerId := s.listenerId + 1
  ({ s with listenerId := listenerId, listeners := assignKey listenerId listener s.listeners },
    listenerId)

/-- Embeds `State.removePublicStateListener(listenerId)`: `delete` returns `true`. -/
def State.removePublicStateListener {L : Type} (s : State L) (listenerId : Option Nat) :
    State L × Bool :=
  match listenerId with
  | none => (s, true)
  | some k => ({ s with listeners := deleteKey k s.listeners }, true)

/-- Class `SubWorkers`. `askMainThread` is the `answer` closure of the
`createContext` call, represented by the `callId` it closes over; `listeners`
holds the request ids that wait for a result. -/
structure SubWorkers where
  askMainThread : Option Nat
  nextId : Nat
  contextId : Nat
  listeners : List Nat
  deriving DecidableEq, Repr

/-- Embeds `new SubWorkers(askMainThread, contextId)`. -/
def SubWorkers.new (askMainThread : Option Nat) (contextId : Nat) : SubWorkers :=
  { askMainThread := askMainThread, nextId := 0, contextId := contextId, listeners := [] }

/-- Embeds `SubWorkers.receiveMethodCallResult({ requestId, result, error })`: the new
object and, when a listener was waiting, how its promise is settled. -/
def SubWorkers.receiveMethodCallResult (w : SubWorkers) (requestId : Option Nat)
    (result error : Val) : SubWorkers × Option (Nat × Settlement) :=
  match requestId with
  | none => (w, none)
  | some r =>
    if r ∈ w.listeners then
      ({ w with listeners := w.listeners.filter (fun k => decide (k ≠ r)) },
        some (r, if error.truthy then Settlement.rejected error else Settlement.resolved result))
    else (w, none)

/-- Embeds `SubWorkers.callMethod(workerPath, methodName, ...args)`: the object
afterwards, the request id, and the object given to `askMainThread`. -/
def SubWorkers.callMethod (w : SubWorkers) (workerPath methodName : String) (args : Val) :
    SubWorkers × Nat × Val :=
  let id := w.nextId + 1
  ({ w with nextId := id, listeners := w.listeners ++ [id] }, id,
    Val.request "callSubWorkerMethod" w.contextId id workerPath methodName args)

/-- A context object: `{}` after `Contexts.createContext`, `{ state, subWorkers }`
after the handler extended it. The listeners of a context's state are the
closures `(state) => answer({ type: 'state', v: state })`, each represented by
the `callId` its `answer` closes over. `subWorkers` refers to the object held
by the `subWorkersHandlers` entry of the same context id. -/
structure Context where
  state : Option (State (Option Nat))
  subWorkers : Option Nat

/-- Class `Contexts`. -/
structure Contexts where
  contexts : List (Nat × Context)
  nextContextId : Nat

/-- Embeds `new Contexts()`. -/
def Contexts.new : Contexts := { contexts := [], nextContextId := 0 }

/-- Embeds `Contexts.createContext()`. -/
def Contexts.createContext (c : Contexts) : Contexts × Nat :=
  let contextId := c.nextContextId + 1
  ({ nextContextId := contextId,
     contexts := assignKey contextId { state := none, subWorkers := none } c.contexts },
    contextId)

/-- Embeds `Contexts.destroyContext(contextId)`: returns `Object.keys(this.contexts).length`. -/
def Contexts.destroyContext (c : Contexts) (contextId : Option Nat) : Contexts × Nat :=
  match contextId with
  | none => (c, c.contexts.length)
  | some k =>
    let contexts := deleteKey k c.contexts
    ({ c with contexts := contexts }, contexts.length)

/-- Embeds `Contexts.extendContext(contextId, extension)` with the extension
`{ state, subWorkers }` of the `createContext` handler. -/
def Contexts.extendContext (c : Contexts) (contextId : Nat) (extension : Context) : Contexts :=
  { c with contexts := assignKey contextId extension c.contexts }

/-- What a property read on the `Contexts` instance itself yields. -/
inductive InstanceMember where
  | contextsTable
  | counter
  | function
  deriving DecidableEq, Repr

/-- The property key a `contextId` is converted to. -/
def propertyKey : Option Nat → String
  | none => "undefined"
  | some n => toString n

/-- Embeds `classes.contexts[key]`: a property of the `Contexts` instance (its two
fields, or a method of its prototype), not an entry of its `contexts` table. -/
def Contexts.instanceProperty (_c : Contexts) (key : String) : Option InstanceMember :=
  if key = "contexts" then some InstanceMember.contextsTable
  else if key = "nextContextId" then some InstanceMember.counter
  else if key = "createContext" ∨ key = "destroyContext" ∨ key = "extendContext"
      ∨ key = "constructor" then some InstanceMember.function
  else none

/-- Embeds `member.state` for a member of the `Contexts` instance: none of them has one. -/
def InstanceMember.state (_m : InstanceMember) : Option (State (Option Nat)) := none

/-- An operation on a `Contexts` instance. -/
inductive ContextsOp where
  | create
  | destroy (contextId : Option Nat)
  deriving DecidableEq, Repr

/-- Apply operations in order; returns the instance and the ids that the
`createContext` calls returned, in call order. -/
def Contexts.runOps (c : Contexts) : List ContextsOp → Contexts × List Nat
  | [] => (c, [])
  | ContextsOp.create :: ops =>
    let (c1, contextId) := c.createContext
    let r := Contexts.runOps c1 ops
    (r.1, contextId :: r.2)
  | ContextsOp.destroy contextId :: ops =>
    Contexts.runOps (c.destroyContext contextId).1 ops

/-- An exported function of the worker program: called with the context as
`this` (`undefined` when the table has no such context) and the arguments. -/
abbrev Method := Option Context → List Val → Completion

/-- The `methods` object given to `makeWorker`: `Object.keys(methods)` and
the property read `methods[name]`. -/
structure Methods where
  keys : List String
  get : String → Option Method

/-- The `classes` record of `makeWorker`: the `Contexts` instance and the map
`subWorkersHandlers` (context id to the `receiveMethodCallResult` closure of
that context's `SubWorkers` object, represented by the object). -/
structure Classes where
  contexts : Contexts
  subWorkersHandlers : List (Nat × SubWorkers)

/-- The `classes` record built by `makeWorker`. -/
def Classes.new : Classes := { contexts := Contexts.new, subWorkersHandlers := [] }

/-- One call of an exported function, as made by `callWorkerMethod`:
the method name, the id of the context passed as `this` (`none` when `this`
is `undefined`) and the arguments. -/
structure MethodCall where
  methodName : String
  receiver : Option Nat
  args : List Val
  deriving DecidableEq, Repr

/-- What running one handler did: the `classes` afterwards, how the call
completed, the exported functions it called, the delegated calls it settled
(context id, request id, settlement). -/
structure Handled where
  classes : Classes
  completion : Completion
  calls : List MethodCall := []
  settled : List (Nat × Nat × Settlement) := []

namespace handlers

/-- Handler `createContext`. -/
def createContext (classes : Classes) (callId : Option Nat) : Handled :=
  let (contexts, contextId) := classes.contexts.createContext
  let state : State (Option Nat) := State.new
  let subWorkers := SubWorkers.new callId contextId
  let contexts := contexts.extendContext contextId
    { state := some state, subWorkers := some contextId }
  { classes := { contexts := contexts,
                 subWorkersHandlers := assignKey contextId subWorkers classes.subWorkersHandlers },
    completion := Completion.value (Val.num contextId) }

/-- Handler `destroyContext`. -/
def destroyContext (classes : Classes) (data : Request) : Handled :=
  let subWorkersHandlers := match data.contextId with
    | none => classes.subWorkersHandlers
    | some k => deleteKey k classes.subWorkersHandlers
  let (contexts, left) := classes.contexts.destroyContext data.contextId
  { classes := { contexts := contexts, subWorkersHandlers := subWorkersHandlers },
    completion := Completion.value (Val.num left) }

/-- Handler `receiveSubWorkerMethodCallResult`. -/
def receiveSubWorkerMethodCallResult (classes : Classes) (data : Request) : Handled :=
  match data.contextId with
  | none => { classes := classes, completion := Completion.value Val.undefined }
  | some k =>
    match lookupKey k classes.subWorkersHandlers with
    | none => { classes := classes, completion := Completion.value Val.undefined }
    | some handler =>
      let (handler, settlement) :=
        handler.receiveMethodCallResult data.requestId data.result data.error
      { classes := { classes with
                     subWorkersHandlers := assignKey k handler classes.subWorkersHandlers },
        completion := Completion.value Val.undefined,
        settled := match settlement with
          | none => []
          | some (r, s) => [(k, r, s)] }

/-- Handler `subscribeToPublicState`: `const context = classes.contexts[contextId]`
reads a property of the `Contexts` instance, then `context.state.addPublicStateListener`. -/
def subscribeToPublicState (classes : Classes) (data : Request) : Handled :=
  match classes.contexts.instanceProperty (propertyKey data.contextId) with
  | none => { classes := classes, completion := Completion.throws Val.typeError }
  | some context =>
    match context.state with
    | none => { classes := classes, completion := Completion.throws Val.typeError }
    | some state =>
      let (_, listenerId) := state.addPublicStateListener data.callId
      { classes := classes,
        completion := Completion.value (Val.tagged "listenerId" (Val.num listenerId)) }

/-- Handler `unsubscribeFromWorkerPublicState`: the same property read, then
`context.state.removePublicStateListener(listenerId)`. -/
def unsubscribeFromWorkerPublicState (classes : Classes) (data : Request) : Handled :=
  match classes.contexts.instanceProperty (propertyKey data.contextId) with
  | none => { classes := classes, completion := Completion.throws Val.typeError }
  | some context =>
    match context.state with
    | none => { classes := classes, completion := Completion.throws Val.typeError }
    | some state =>
      let (_, removed) := state.removePublicStateListener data.listenerId
      { classes := classes, completion := Completion.value (Val.bool removed) }

/-- Handler `getMethodsList`: `Object.keys(methods ? methods : {})`. -/
def getMethodsList (classes : Classes) (methods : Option Methods) : Handled :=
  { classes := classes,
    completion := Completion.value (Val.names (match methods with
      | none => []
      | some m => m.keys)) }

/-- Handler `callWorkerMethod`: `classes.contexts.contexts[contextId]` is read
from the table, then `methods[methodName].apply(context, args)`. -/
def callWorkerMethod (classes : Classes) (methods : Option Methods) (data : Request) :
    Handled :=
  let context := match data.contextId with
    | none => none
    | some k => lookupKey k classes.contexts.contexts
  match methods with
  | none => { classes := classes, completion := Completion.throws Val.typeError }
  | some m =>
    let methodName := data.methodName.getD "undefined"
    match m.get methodName with
    | none => { classes := classes, completion := Completion.throws Val.typeError }
    | some f =>
      { classes := classes,
        completion := f context data.args,
        calls := [{ methodName := methodName,
                    receiver := match context with
                      | none => none
                      | some _ => data.contextId,
                    args := data.args }] }

/-- The own keys of the `handlers` object literal, in source order. -/
def keys : List String :=
  ["createContext", "destroyContext", "receiveSubWorkerMethodCallResult",
   "subscribeToPublicState", "unsubscribeFromWorkerPublicState", "getMethodsList",
   "callWorkerMethod"]

/-- A call `handlers[name](data, env)` where `name` is not an own key but a
member that the object literal inherits from `Object.prototype`; `none` when
there is no such member. None of them touches `classes` or `methods`.
`valueOf` returns the registry itself, which `postMessage` cannot clone: the
throw happens inside `answer`, within the same `try`. -/
def inherited (name : String) : Option Completion :=
  if name = "constructor" then some (Completion.value (Val.ref "data"))
  else if name = "toString" ∨ name = "toLocaleString" then
    some (Completion.value (Val.str "[object Object]"))
  else if name = "hasOwnProperty" ∨ name = "isPrototypeOf" ∨ name = "propertyIsEnumerable" then
    some (Completion.value (Val.bool false))
  else if name = "__lookupGetter__" ∨ name = "__lookupSetter__" then
    some (Completion.value Val.undefined)
  else if name = "valueOf" then some (Completion.throws (Val.exn "DataCloneError"))
  else if name = "__defineGetter__" ∨ name = "__defineSetter__" ∨ name = "__proto__" then
    some (Completion.throws Val.typeError)
  else none

/-- The call `handlers[activityName](data, { classes, methods, answer, callId })`. -/
def call (methods : Option Methods) (classes : Classes) (data : Request) : Handled :=
  let activityName := data.activityName.getD "undefined"
  if activityName = "createContext" then createContext classes data.callId
  else if activityName = "destroyContext" then destroyContext classes data
  else if activityName = "receiveSubWorkerMethodCallResult" then
    receiveSubWorkerMethodCallResult classes data
  else if activityName = "subscribeToPublicState" then subscribeToPublicState classes data
  else if activityName = "unsubscribeFromWorkerPublicState" then
    unsubscribeFromWorkerPublicState classes data
  else if activityName = "getMethodsList" then getMethodsList classes methods
  else if activityName = "callWorkerMethod" then callWorkerMethod classes methods data
  else match inherited activityName with
    | some completion => { classes := classes, completion := completion }
    | none => { classes := classes, completion := Completion.throws Val.typeError }

end handlers

/-- The messages `answer(result)` posts, and the `catch` branch of `onmessage`
for a handler that threw: a value is posted as the result at once, a promise
when it settles (never, when it stays pending). -/
def answer (callId : Option Nat) : Completion → List Reply
  | Completion.throws error => [Reply.ofError callId error]
  | Completion.value result => [Reply.ofResult callId result]
  | Completion.promise (Fate.fulfils r) => [Reply.ofResult callId r]
  | Completion.promise (Fate.rejects error) => [Reply.ofError callId error]
  | Completion.promise Fate.pending => []

/-- What handling one message did. -/
structure Handling where
  classes : Classes
  posted : List Reply
  calls : List MethodCall
  settled : List (Nat × Nat × Settlement)

/-- The `self.onmessage` of `makeWorker(methods)`. -/
def onmessage (methods : Option Methods) (classes : Classes) (data : Request) : Handling :=
  let h := handlers.call methods classes data
  { classes := h.classes, posted := answer data.callId h.completion,
    calls := h.calls, settled := h.settled }

/-- The exported function of a live context calls `this.state.setPublicState(f)`:
the table afterwards and the messages its listeners post, each
`answer({ type: 'state', v: state })` under the callId of its subscription. -/
def setPublicStateOf (classes : Classes) (contextId : Nat) (getNewState : Val → Val) :
    Classes × List Reply :=
  match lookupKey contextId classes.contexts.contexts with
  | none => (classes, [])
  | some context =>
    match context.state with
    | none => (classes, [])
    | some state =>
      let (state, notified) := state.setPublicState getNewState
      ({ classes with contexts := { classes.contexts with
           contexts := assignKey contextId { context with state := some state }
             classes.contexts.contexts } },
        notified.map (fun n => Reply.ofResult n.1 (Val.tagged "state" n.2)))

/-- The exported function of a live context calls
`this.subWorkers.callMethod(workerPath, methodName, ...args)`: the `classes`
afterwards and the message that `askMainThread`, the `answer` of the
`createContext` call, posts. -/
def callSubWorkerOf (classes : Classes) (contextId : Nat) (workerPath methodName : String)
    (args : Val) : Classes × List Reply :=
  match lookupKey contextId classes.contexts.contexts with
  | none => (classes, [])
  | some context =>
    match context.subWorkers with
    | none => (classes, [])
    | some k =>
      match lookupKey k classes.subWorkersHandlers with
      | none => (classes, [])
      | some subWorkers =>
        let (subWorkers, _, request) := subWorkers.callMethod workerPath methodName args
        ({ classes with subWorkersHandlers := assignKey k subWorkers classes.subWorkersHandlers },
          [Reply.ofResult subWorkers.askMainThread request])

/-- What happens in a worker: a message arrives, or an exported function
sets the public state of its context or delegates a call to a sub-worker. -/
inductive WorkerEvent where
  | message (data : Request)
  | setPublicState (contextId : Nat) (getNewState : Val → Val)
  | callSubWorker (contextId : Nat) (workerPath methodName : String) (args : Val)

/-- One event of the worker: the `classes` afterwards and the messages posted. -/
def workerStep (methods : Option Methods) (classes : Classes) :
    WorkerEvent → Classes × List Reply
  | WorkerEvent.message data =>
    let h := onmessage methods classes data
    (h.classes, h.posted)
  | WorkerEvent.setPublicState contextId getNewState =>
    setPublicStateOf classes contextId getNewState
  | WorkerEvent.callSubWorker contextId workerPath methodName args =>
    callSubWorkerOf classes contextId workerPath methodName args

/-- A worker made by `makeWorker(methods)` after a sequence of events: the
`classes` and every message posted, in order. -/
def runWorker (methods : Option Methods) (events : List WorkerEvent) : Classes × List Reply :=
  events.foldl (fun acc ev =>
    let r := workerStep methods acc.1 ev
    (r.1, acc.2 ++ r.2)) (Classes.new, [])

/-- The context ids that are live: the keys of the table of `Contexts`. -/
def liveContexts (classes : Classes) : List Nat :=
  classes.contexts.contexts.map Prod.fst

/-- The keys of the context table ascend and stay at or below the counter. -/
def Ascending (classes : Classes) : Prop :=
  (liveContexts classes).Pairwise (fun a b => a < b)
    ∧ ∀ k ∈ liveContexts classes, k ≤ classes.contexts.nextContextId

/-- A use of one `State` object. -/
inductive StateOp (L : Type) where
  | add (listener : L)
  | remove (listenerId : Option Nat)
  | set (getNewState : Val → Val)

/-- What a sequence of uses of a `State` did: the ids that
`addPublicStateListener` returned, the booleans that
`removePublicStateListener` returned, and the listener calls of
`setPublicState`, each in call order. -/
structure StateTrace (L : Type) where
  ids : List Nat
  removed : List Bool
  notified : List (L × Val)

/-- Apply uses in order to a `State`. -/
def State.runOps {L : Type} (s : State L) : List (StateOp L) → State L × StateTrace L
  | [] => (s, { ids := [], removed := [], notified := [] })
  | StateOp.add listener :: ops =>
    let (s1, listenerId) := s.addPublicStateListener listener
    let r := State.runOps s1 ops
    (r.1, { r.2 with ids := listenerId :: r.2.ids })
  | StateOp.remove listenerId :: ops =>
    let (s1, b) := s.removePublicStateListener listenerId
    let r := State.runOps s1 ops
    (r.1, { r.2 with removed := b :: r.2.removed })
  | StateOp.set getNewState :: ops =>
    let (s1, notified) := s.setPublicState getNewState
    let r := State.runOps s1 ops
    (r.1, { r.2 with notified := notified ++ r.2.notified })

end MakeWorker

namespace UseWorker

/-- Class `ExtendedWorker`, as far as messages go: the call id counter, the
messages given to `worker.postMessage`, and the `message` listeners that
`sendMessage` added, each with the `callId` and the `callBackOnResponse` it
closes over. `K` stands for the callbacks. -/
structure ExtendedWorker (K : Type) where
  nextCallId : Nat
  posted : List Request
  listeners : List (Nat × K)

/-- The constructor: `this.nextCallId = 0`. -/
def ExtendedWorker.new {K : Type} : ExtendedWorker K :=
  { nextCallId := 0, posted := [], listeners := [] }

/-- Embeds `sendMessage(message, callBackOnResponse)`: the handle afterwards and the
`callId` assigned. The function it returns is `removeListener` at that id. -/
def ExtendedWorker.sendMessage {K : Type} (w : ExtendedWorker K) (message : Request)
    (callBackOnResponse : K) : ExtendedWorker K × Nat :=
  let callId := w.nextCallId
  ({ nextCallId := w.nextCallId + 1,
     posted := w.posted ++ [{ message with callId := some callId }],
     listeners := w.listeners ++ [(callId, callBackOnResponse)] },
    callId)

/-- The function returned by `sendMessage`:
`this.worker.removeEventListener('message', listener)`. -/
def ExtendedWorker.removeListener {K : Type} (w : ExtendedWorker K) (callId : Nat) :
    ExtendedWorker K :=
  { w with listeners := deleteKey callId w.listeners }

/-- A use of the handle's message layer: a `sendMessage`, or a call of the
function that the `sendMessage` which was assigned `callId` returned. -/
inductive SendOp (K : Type) where
  | send (message : Request) (callBackOnResponse : K)
  | unsubscribe (callId : Nat)

/-- Apply operations in order; returns the handle and, for every `sendMessage`
in call order, the `callId` it was assigned and its callback. -/
def ExtendedWorker.runOps {K : Type} (w : ExtendedWorker K) :
    List (SendOp K) → ExtendedWorker K × List (Nat × K)
  | [] => (w, [])
  | SendOp.send message cb :: ops =>
    let (w1, callId) := w.sendMessage message cb
    let r := ExtendedWorker.runOps w1 ops
    (r.1, (callId, cb) :: r.2)
  | SendOp.unsubscribe callId :: ops =>
    ExtendedWorker.runOps (w.removeListener callId) ops

/-- The callback of `sendMessagePromisified`, after its `unsubscribe()`:
`if (err) reject(err) else resolve(res)`. -/
def promisifiedCallback (err res : Val) : Settlement :=
  if err.truthy then Settlement.rejected err else Settlement.resolved res

/-- Embeds `sendMessagePromisified(message)`: `sendMessage` with the callback above;
the promise is identified by the `callId`. -/
def ExtendedWorker.sendMessagePromisified (w : ExtendedWorker Unit) (message : Request) :
    ExtendedWorker Unit × Nat :=
  w.sendMessage message ()

/-- A `message` event on a handle whose listeners all come from
`sendMessagePromisified`: each listener it matches is removed and settles
its promise. -/
def ExtendedWorker.receive (w : ExtendedWorker Unit) (data : Reply) :
    ExtendedWorker Unit × List (Nat × Settlement) :=
  match data.callId with
  | none => (w, [])
  | some k =>
    ({ w with listeners := deleteKey k w.listeners },
      (w.listeners.filter (fun l => decide (l.1 = k))).map
        (fun l => (l.1, promisifiedCallback data.error data.result)))

/-- Message of `createContext()`. -/
def createContextMessage : Request := { activityName := some "createContext" }

/-- Message of `destroyContext(contextId)`. -/
def destroyContextMessage (contextId : Nat) : Request :=
  { activityName := some "destroyContext", contextId := some contextId }

/-- Message of `getMethods(contextId)`. -/
def getMethodsListMessage : Request := { activityName := some "getMethodsList" }

/-- Message of a method proxy built by `getMethods(contextId)`. -/
def callWorkerMethodMessage (methodName : String) (contextId : Nat) (args : List Val) :
    Request :=
  { activityName := some "callWorkerMethod", methodName := some methodName,
    contextId := some contextId, args := args }

/-- Message of `subscribeToWorkerPublicState(contextId, subscriber)`. -/
def subscribeMessage (contextId : Nat) : Request :=
  { activityName := some "subscribeToPublicState", contextId := some contextId }

/-- Message of the function that `subscribeToWorkerPublicState` returns. -/
def unsubscribeMessage (contextId : Nat) (listenerId : Option Nat) : Request :=
  { activityName := some "unsubscribeFromPublicState", contextId := some contextId,
    listenerId := listenerId }

/-- Message of `callSubWorkerMethod(data)`: the fields of `data` left after
`workerPath`, `methodName` and `args` are taken out, then the result. -/
def subWorkerResultMessage (requestName : Option String) (contextId requestId : Option Nat)
    (result error : Val) : Request :=
  { activityName := some "receiveSubWorkerMethodCallResult", requestName := requestName,
    contextId := contextId, requestId := requestId, result := result, error := error }

/-- The activity name of every message the handle builds, in source order. -/
def outboundActivityNames : List (Option String) :=
  [createContextMessage.activityName, (destroyContextMessage 0).activityName,
   getMethodsListMessage.activityName, (callWorkerMethodMessage "" 0 []).activityName,
   (subscribeMessage 0).activityName, (unsubscribeMessage 0 none).activityName,
   (subWorkerResultMessage none none none Val.undefined Val.undefined).activityName]

/-- A method proxy is called on a handle of a worker in state `classes`:
the request goes through `onmessage`, and each message the worker posts is
received by the handle. Returns the posted messages and the settlements of
the proxy's promise. -/
def callMethod (methods : Option MakeWorker.Methods) (classes : MakeWorker.Classes)
    (w : ExtendedWorker Unit) (methodName : String) (contextId : Nat) (args : List Val) :
    List Reply × List (Nat × Settlement) :=
  let (w, _) := w.sendMessagePromisified (callWorkerMethodMessage methodName contextId args)
  match w.posted.getLast? with
  | none => ([], [])
  | some request =>
    let replies := (MakeWorker.onmessage methods classes request).posted
    (replies, (replies.foldl (fun acc data =>
      let r := ExtendedWorker.receive acc.1 data
      (r.1, acc.2 ++ r.2)) (w, [])).2)

/-- Embeds `obj[key]` on an object keyed by strings (own properties). -/
def lookupName {β : Type} (key : String) : List (String × β) → Option β
  | [] => none
  | (k, v) :: rest => if k = key then some v else lookupName key rest

/-- Embeds `delete obj[key]` on an object keyed by strings. -/
def deleteName {β : Type} (key : String) (obj : List (String × β)) : List (String × β) :=
  obj.filter (fun kv => decide (kv.1 ≠ key))

/-- Embeds `obj[key] = v` on an object keyed by strings: overwrite in place,
or append a new property. -/
def assignName {β : Type} (key : String) (v : β) : List (String × β) → List (String × β)
  | [] => [(key, v)]
  | (k, w) :: rest => if k = key then (k, v) :: rest else (k, w) :: assignName key v rest

/-- The names that a plain object inherits from `Object.prototype`: a read of
one of them on `{}` gives a truthy value that is not an own property. -/
def objectPrototypeNames : List String :=
  ["constructor", "toString", "toLocaleString", "valueOf", "hasOwnProperty",
   "isPrototypeOf", "propertyIsEnumerable", "__defineGetter__", "__defineSetter__",
   "__lookupGetter__", "__lookupSetter__", "__proto__"]

/-- Class `WorkersPool`. A handle made by `createWorker` is named by the
number of handles made before it; `created` counts them. -/
structure WorkersPool where
  workers : List (String × Nat)
  permanentWorkers : List String
  created : Nat
  deriving DecidableEq, Repr

/-- The constructor of `WorkersPool`: `permanentWorkers = []` by default. -/
def WorkersPool.new (permanentWorkers : List String) : WorkersPool :=
  { workers := [], permanentWorkers := permanentWorkers, created := 0 }

/-- What `checkOut` returns: a handle, or the inherited member that the read
`this.workers[workerPath]` found. -/
inductive CheckedOut where
  | handle (id : Nat)
  | inherited (name : String)
  deriving DecidableEq, Repr

/-- Embeds `WorkersPool.checkOut(workerPath)`. -/
def WorkersPool.checkOut (pool : WorkersPool) (workerPath : String) :
    WorkersPool × CheckedOut :=
  match lookupName workerPath pool.workers with
  | some h => (pool, CheckedOut.handle h)
  | none =>
    if workerPath ∈ objectPrototypeNames then (pool, CheckedOut.inherited workerPath)
    else
      ({ pool with workers := assignName workerPath pool.created pool.workers,
                   created := pool.created + 1 },
        CheckedOut.handle pool.created)

/-- Embeds `WorkersPool.terminate(workerPath, terminateWorker)`: the pool
afterwards and the number of calls of `terminateWorker`. -/
def WorkersPool.terminate (pool : WorkersPool) (workerPath : String) : WorkersPool × Nat :=
  if workerPath ∈ pool.permanentWorkers then (pool, 0)
  else ({ pool with workers := deleteName workerPath pool.workers }, 1)

/-- Send `message` with `sendMessagePromisified` to a worker in state
`classes`: the request goes through `onmessage`, and each message the worker
posts for it is received by the handle. Returns what the worker did, the
handle afterwards and the settlements of the promise. -/
def request (methods : Option MakeWorker.Methods) (classes : MakeWorker.Classes)
    (w : ExtendedWorker Unit) (message : Request) :
    MakeWorker.Handling × ExtendedWorker Unit × List (Nat × Settlement) :=
  let (w, callId) := w.sendMessagePromisified message
  let handling := MakeWorker.onmessage methods classes { message with callId := some callId }
  (handling, handling.posted.foldl (fun acc data =>
    let r := ExtendedWorker.receive acc.1 data
    (r.1, acc.2 ++ r.2)) (w, []))

/-- The rest of `ExtendedWorker.destroyContext(contextId)` after its `await`:
whether `this.terminate()` is called, `if (contextsLeft === 0)`. A promise
that rejects makes the `await` throw. -/
def terminatesAfter : Settlement → Bool
  | Settlement.resolved contextsLeft => decide (contextsLeft = Val.num 0)
  | Settlement.rejected _ => false

/-- Embeds `ExtendedWorker.destroyContext(contextId)` on a handle of a worker in
state `classes`: the `classes` afterwards, and whether termination is ordered. -/
def ExtendedWorker.destroyContext (methods : Option MakeWorker.Methods)
    (classes : MakeWorker.Classes) (w : ExtendedWorker Unit) (contextId : Nat) :
    MakeWorker.Classes × Bool :=
  let r := request methods classes w (destroyContextMessage contextId)
  (r.1.classes, match r.2.2.head? with
    | some s => terminatesAfter s.2
    | none => false)

/-- A member of the object that `use()` returns: a method proxy built by
`getMethods`, or one of the two functions that `use` adds. -/
inductive Member where
  | proxy (methodName : String) (contextId : Nat)
  | subscribeToWorkerPublicState (contextId : Nat)
  | destroyContext (contextId : Nat)
  deriving DecidableEq, Repr

/-- The first message that calling a member sends. -/
def Member.message : Member → List Val → Request
  | Member.proxy methodName contextId, args => callWorkerMethodMessage methodName contextId args
  | Member.subscribeToWorkerPublicState contextId, _ => subscribeMessage contextId
  | Member.destroyContext contextId, _ => destroyContextMessage contextId

/-- What a `message` listener did. -/
inductive ListenerOutcome where
  | threw (e : Val)
  | ignored
  | handled (res : Val)
  deriving DecidableEq, Repr

/-- The listener that `listenForRequest(requestName, contextId, handler)` adds.
`const { result: res = {} } = data` takes `{}` for `undefined` only; then
`res.requestName` and `res.contextId` are read: a `TypeError` on `null`,
`undefined` on a value that is no request object. -/
def listenForRequestListener (requestName : String) (contextId : Nat) (data : Reply) :
    ListenerOutcome :=
  match data.result with
  | Val.undefined => ListenerOutcome.ignored
  | Val.null => ListenerOutcome.threw Val.typeError
  | Val.request name context requestId workerPath methodName args =>
    if name = requestName ∧ context = contextId then
      ListenerOutcome.handled (Val.request name context requestId workerPath methodName args)
    else ListenerOutcome.ignored
  | _ => ListenerOutcome.ignored

/-- The object that `useAnotherExtendedWorker(workerPath)` resolves with: the
property read `subWorker[name]` and what calling that member does, given the
array of arguments. -/
structure SubHandle where
  get : String → Option (Val → Completion)

/-- How the promise of `useAnotherExtendedWorker(workerPath)` ends. -/
inductive Acquired where
  | resolves (subWorker : SubHandle)
  | rejects (e : Val)
  | pending

/-- What `await` makes of a call: its value, an exception, or no return. -/
inductive Awaited where
  | value (v : Val)
  | raised (e : Val)
  | stuck
  deriving DecidableEq, Repr

/-- Embeds `await` applied to the completion of a call. -/
def awaitCompletion : Completion → Awaited
  | Completion.throws e => Awaited.raised e
  | Completion.value v => Awaited.value v
  | Completion.promise (Fate.fulfils v) => Awaited.value v
  | Completion.promise (Fate.rejects e) => Awaited.raised e
  | Completion.promise Fate.pending => Awaited.stuck

/-- What `callSubWorkerMethod` does, in order: the call of the delegated
method, the call of `subWorker.destroyContext()`, the message it sends. -/
inductive SubCallEvent where
  | called (methodName : String) (args : Val)
  | destroyContext
  | sent (message : Request)
  deriving DecidableEq, Repr

/-- Embeds `ExtendedWorker.callSubWorkerMethod(data)`, for the request object
that `listenForRequest` hands over (it hands over nothing else). -/
def callSubWorkerMethod (useAnotherExtendedWorker : String → Acquired) (data : Val) :
    List SubCallEvent :=
  match data with
  | Val.request requestName contextId requestId workerPath methodName args =>
    let send := fun (result error : Val) =>
      SubCallEvent.sent
        (subWorkerResultMessage (some requestName) (some contextId) (some requestId) result error)
    match useAnotherExtendedWorker workerPath with
    | Acquired.pending => []
    | Acquired.rejects e => [send Val.undefined e]
    | Acquired.resolves subWorker =>
      match subWorker.get methodName with
      | none => [send Val.undefined Val.typeError]
      | some method =>
        match awaitCompletion (method args) with
        | Awaited.stuck => [SubCallEvent.called methodName args]
        | Awaited.raised e => [SubCallEvent.called methodName args, send Val.undefined e]
        | Awaited.value result =>
          match subWorker.get "destroyContext" with
          | none => [SubCallEvent.called methodName args, send Val.undefined Val.typeError]
          | some destroyContext =>
            match awaitCompletion (destroyContext Val.emptyArray) with
            | Awaited.stuck => [SubCallEvent.called methodName args, SubCallEvent.destroyContext]
            | Awaited.raised e =>
              [SubCallEvent.called methodName args, SubCallEvent.destroyContext,
               send Val.undefined e]
            | Awaited.value _ =>
              [SubCallEvent.called methodName args, SubCallEvent.destroyContext,
               send result Val.undefined]
  | _ => []

/-- A sub-handle with a method `double`, whose promise fulfils with twice its
argument and rejects with a message on another argument, and a
`destroyContext` whose promise fulfils. -/
def doubler : SubHandle :=
  { get := fun name =>
      if name = "double" then some (fun args =>
        match args with
        | Val.array (Val.num n) Val.emptyArray =>
          Completion.promise (Fate.fulfils (Val.num (2 * n)))
        | _ => Completion.promise (Fate.rejects (Val.str "not a number")))
      else if name = "destroyContext" then
        some (fun _ => Completion.promise (Fate.fulfils Val.undefined))
      else none }

/-- A worker program with one exported function, `f`, that returns its first
argument, and throws the string `boom` when it has none. -/
def echoFirst : MakeWorker.Methods :=
  { keys := ["f"],
    get := fun name => if name = "f" then some (fun _ args =>
        match args with
        | [] => Completion.throws (Val.str "boom")
        | v :: _ => Completion.value v)
      else none }

end UseWorker

namespace AutoWorkerJs

/-- Calls that the queue and the façade make, in the order they happen:
`task.func()` in `executeAll`, `task.resolve(v)` and `task.reject(e)` by the
chain `.then(task.resolve).catch(task.reject)`, `task.reject(reason)` in
`rejectAll`, the call `this.workerMethods[methodName](...args)` in the direct
branch of `do`, the `throw` of `create`, and
`this.workerMethods.destroyContext()` in `destroy`. -/
inductive Event where
  | invoked (task : Nat)
  | resolved (task : Nat) (v : Val)
  | rejected (task : Nat) (e : Val)
  | rejectedAll (task : Nat) (reason : Val)
  | called (methodName : String) (args : List Val)
  | createFailed
  | destroyContext
  deriving DecidableEq, Repr

/-- Class `QueueTask`. `func` may read the state `E` it closes over when it is
called; `resolve` and `reject` are the pair of one promise, named by `id`
(the functions a `new Promise` executor receives, which never throw). -/
structure QueueTask (E : Type) where
  id : Nat
  func : E → Completion

/-- Class `AsyncQueue`. -/
structure AsyncQueue (E : Type) where
  queue : List (QueueTask E)

/-- Embeds `new AsyncQueue()`. -/
def AsyncQueue.new {E : Type} : AsyncQueue E := { queue := [] }

/-- Embeds `AsyncQueue.add(task)`. -/
def AsyncQueue.add {E : Type} (q : AsyncQueue E) (task : QueueTask E) : AsyncQueue E :=
  { queue := q.queue ++ [task] }

/-- What the `for` loop of `executeAll` did: the funcs it called, the promises
it pushed (with the task each belongs to), and the error that ended it early. -/
structure Loop where
  invoked : List Nat
  promises : List (Nat × Fate)
  thrown : Option Val
  deriving DecidableEq, Repr

/-- The `for (const task of this.queue)` loop of `executeAll`, with the funcs
run in state `env`. `task.func().then(..)` throws when `func` throws, and also
when what it returns has no `then`. -/
def executeLoop {E : Type} (env : E) : List (QueueTask E) → Loop
  | [] => { invoked := [], promises := [], thrown := none }
  | task :: rest =>
    match task.func env with
    | Completion.throws e => { invoked := [task.id], promises := [], thrown := some e }
    | Completion.value _ =>
      { invoked := [task.id], promises := [], thrown := some Val.typeError }
    | Completion.promise p =>
      let r := executeLoop env rest
      { invoked := task.id :: r.invoked, promises := (task.id, p) :: r.promises,
        thrown := r.thrown }

/-- The call that `.then(task.resolve).catch(task.reject)` makes when the
promise of `task.func()` settles. -/
def wiring (task : Nat) : Fate → List Event
  | Fate.fulfils v => [Event.resolved task v]
  | Fate.rejects e => [Event.rejected task e]
  | Fate.pending => []

/-- Whether a promise settles. -/
def Fate.settles : Fate → Bool
  | Fate.pending => false
  | _ => true

/-- How the promise of an `async` function ends. -/
inductive Ending where
  | fulfilled
  | rejected (e : Val)
  | pending
  deriving DecidableEq, Repr

/-- A whole run of `executeAll`. -/
structure Executed (E : Type) where
  queue : AsyncQueue E
  events : List Event
  ending : Ending

/-- Embeds `AsyncQueue.executeAll()` with the funcs run in state `env`: the loop, then
the resolve/reject calls of the promises that settle (listed in queue order;
the source leaves their order to the promises), then, when the loop did not
throw and `Promise.all` is fulfilled, `this.queue = []`. -/
def AsyncQueue.executeAll {E : Type} (q : AsyncQueue E) (env : E) : Executed E :=
  let r := executeLoop env q.queue
  let events := r.invoked.map Event.invoked ++ (r.promises.map (fun p => wiring p.1 p.2)).flatten
  match r.thrown with
  | some e => { queue := q, events := events, ending := Ending.rejected e }
  | none =>
    if r.promises.all (fun p => Fate.settles p.2) then
      { queue := { queue := [] }, events := events, ending := Ending.fulfilled }
    else { queue := q, events := events, ending := Ending.pending }

/-- Embeds `AsyncQueue.rejectAll(reason)`: the queue is left as it is. -/
def AsyncQueue.rejectAll {E : Type} (q : AsyncQueue E) (reason : Val) : List Event :=
  q.queue.map (fun task => Event.rejectedAll task.id reason)

/-- The object `useWorker(workerPath)` resolves with: the property read
`workerMethods[name]` and what calling that member with arguments does. -/
structure Handle where
  get : String → Option (List Val → Completion)

/-- The thunk `() => this.workerMethods[methodName](...args)` that `do` queues;
it reads `this.workerMethods` when it is called. -/
def thunk (methodName : String) (args : List Val) (workerMethods : Option Handle) :
    Completion :=
  match workerMethods with
  | none => Completion.throws Val.typeError
  | some h =>
    match h.get methodName with
    | none => Completion.throws Val.typeError
    | some f => f args

/-- An `executeAll` that has run its loop: the promises that have not settled
yet, and whether the `await Promise.all(promises)` was reached. -/
structure Flight where
  promises : List (Nat × Fate)
  awaited : Bool
  deriving DecidableEq, Repr

/-- Class `AutoWorker`, with what its asynchronous functions have in progress:
`nextTask` names the promise of the next queued `do`, `creating` counts the
`create` calls that wait for `useWorker`, `flights` are the `executeAll` calls
whose promises are still to settle, `log` is what has been called so far. -/
structure AutoWorker where
  queue : AsyncQueue (Option Handle)
  workerMethods : Option Handle
  isWorkerStillRelevant : Bool
  nextTask : Nat
  creating : Nat
  flights : List Flight
  log : List Event

/-- The constructor of `AutoWorker`. -/
def AutoWorker.new : AutoWorker :=
  { queue := AsyncQueue.new, workerMethods := none, isWorkerStillRelevant := true,
    nextTask := 0, creating := 0, flights := [], log := [] }

/-- The message `destroy` rejects with when it is given none. -/
def defaultRejectMessage : Val :=
  Val.str "the worker will be destroyed, so no need for the task anymore"

/-- The steps of a façade: the synchronous stretches of `do`, `create` and
`destroy` between two `await`s, and the settling of promises in between. -/
inductive Step where
  | doCall (methodName : String) (args : List Val)
  | createStart
  | createResume (h : Handle)
  | createAbort
  | settle (task : Nat)
  | flushDone
  | destroy (tasksRejectMessage : Val)

/-- Settle the first promise of `task` that can settle, in the first flight that has one. -/
def settleIn (task : Nat) : List Flight → List Flight × List Event
  | [] => ([], [])
  | f :: rest =>
    match f.promises.find? (fun p => decide (p.1 = task) && Fate.settles p.2) with
    | some p =>
      ({ f with promises := f.promises.erase p } :: rest, wiring p.1 p.2)
    | none =>
      let r := settleIn task rest
      (f :: r.1, r.2)

/-- Take out the first flight whose `Promise.all` is fulfilled, if there is one. -/
def completeIn : List Flight → Option (List Flight)
  | [] => none
  | f :: rest =>
    if f.awaited && f.promises.isEmpty then some rest
    else (completeIn rest).map (fun r => f :: r)

/-- One step of a façade.
* `doCall`: `do(methodName, ...args)`, a direct call when `workerMethods` is set,
  a queued task otherwise;
* `createStart`: `create()` up to `await this.useWorker(..)`;
* `createResume h`: `useWorker` resolved with `h`; `workerMethods` is assigned,
  then the loop of `executeAll` runs, or the error is thrown;
* `createAbort`: `useWorker` rejected;
* `settle task`: a promise returned by the func of `task` settles;
* `flushDone`: the `await Promise.all(promises)` of an `executeAll` returns and
  `this.queue = []` runs;
* `destroy reason`: `destroy(reason)`. -/
def AutoWorker.step (a : AutoWorker) : Step → AutoWorker
  | Step.doCall methodName args =>
    match a.workerMethods with
    | some _ => { a with log := a.log ++ [Event.called methodName args] }
    | none =>
      { a with
        queue := a.queue.add { id := a.nextTask, func := thunk methodName args },
        nextTask := a.nextTask + 1 }
  | Step.createStart => { a with creating := a.creating + 1 }
  | Step.createResume h =>
    if a.creating = 0 then a
    else if a.isWorkerStillRelevant then
      let r := executeLoop (some h) a.queue.queue
      { a with
        workerMethods := some h,
        creating := a.creating - 1,
        flights := a.flights ++ [{ promises := r.promises, awaited := r.thrown.isNone }],
        log := a.log ++ r.invoked.map Event.invoked }
    else
      { a with
        workerMethods := some h,
        creating := a.creating - 1,
        log := a.log ++ [Event.createFailed] }
  | Step.createAbort => { a with creating := a.creating - 1 }
  | Step.settle task =>
    let r := settleIn task a.flights
    { a with flights := r.1, log := a.log ++ r.2 }
  | Step.flushDone =>
    match completeIn a.flights with
    | none => a
    | some flights => { a with flights := flights, queue := { queue := [] } }
  | Step.destroy tasksRejectMessage =>
    let reason := if tasksRejectMessage.truthy then tasksRejectMessage else defaultRejectMessage
    let rejected := a.queue.rejectAll reason
    { a with
      isWorkerStillRelevant := false,
      log := a.log ++ rejected ++
        (match a.workerMethods with
         | some _ => [Event.destroyContext]
         | none => []) }

/-- A façade after a sequence of steps from its construction. -/
def AutoWorker.run (steps : List Step) : AutoWorker :=
  steps.foldl AutoWorker.step AutoWorker.new

/-- Whether `do` takes its direct branch: `this.workerMethods !== undefined`. -/
def AutoWorker.isWorkerReady (a : AutoWorker) : Bool := a.workerMethods.isSome

/-- The tasks that `executeAll` has called, in order. -/
def flushed (log : List Event) : List Nat :=
  log.filterMap (fun e => match e with
    | Event.invoked t => some t
    | _ => none)

/-- The tasks that `rejectAll` has rejected, in order. -/
def rejectedByRejectAll (log : List Event) : List Nat :=
  log.filterMap (fun e => match e with
    | Event.rejectedAll t _ => some t
    | _ => none)

/-- A handle with a proxy `add`, whose promise fulfils with the sum of two
numbers and rejects on other arguments, and a `destroyContext`. -/
def adder : Handle :=
  { get := fun name =>
      if name = "add" then some (fun args =>
        match args with
        | [Val.num a, Val.num b] => Completion.promise (Fate.fulfils (Val.num (a + b)))
        | _ => Completion.promise (Fate.rejects (Val.str "bad arguments")))
      else if name = "destroyContext" then
        some (fun _ => Completion.promise (Fate.fulfils Val.undefined))
      else none }

/-- A queue of two tasks: the func of the first throws, the second returns a
promise that fulfils. -/
def throwingFirst : AsyncQueue Unit :=
  { queue := [{ id := 0, func := fun _ => Completion.throws (Val.str "boom") },
              { id := 1, func := fun _ => Completion.promise (Fate.fulfils (Val.num 1)) }] }

/-- A queue of two tasks: the func of the first returns a promise that
rejects, the second one that fulfils. -/
def rejectingFirst : AsyncQueue Unit :=
  { queue := [{ id := 0, func := fun _ => Completion.promise (Fate.rejects (Val.str "boom")) },
              { id := 1, func := fun _ => Completion.promise (Fate.fulfils (Val.num 1)) }] }

end AutoWorkerJs

/-! ## Theorems -/

section Contexts
open MakeWorker

theorem Contexts.runOps_gt (ops : List ContextsOp) :
    ∀ c : Contexts, ∀ k ∈ (c.runOps ops).2, c.nextContextId < k := by
  induction ops with
  | nil => intro c k hk; simp [Contexts.runOps] at hk
  | cons op ops ih =>
    intro c k hk
    cases op with
    | create =>
      simp only [Contexts.runOps, Contexts.createContext, List.mem_cons] at hk
      rcases hk with rfl | hk
      · exact Nat.lt_succ_self _
      · have := ih _ k hk
        simp at this
        omega
    | destroy contextId =>
      simp only [Contexts.runOps] at hk
      have := ih _ k hk
      cases contextId <;> simpa [Contexts.destroyContext] using this

theorem Contexts.runOps_pairwise (ops : List ContextsOp) :
    ∀ c : Contexts, ((c.runOps ops).2).Pairwise (fun a b => a < b) := by
  induction ops with
  | nil => intro c; simp [Contexts.runOps]
  | cons op ops ih =>
    intro c
    cases op with
    | create =>
      simp only [Contexts.runOps, Contexts.createContext, List.pairwise_cons]
      refine ⟨?_, ih _⟩
      intro k hk
      have := Contexts.runOps_gt ops _ k hk
      simpa using this
    | destroy contextId =>
      simp only [Contexts.runOps]
      exact ih _

/-- C10: on one `Contexts` instance, under any sequence of `createContext` and
`destroyContext` operations, the ids returned by `createContext` are strictly
increasing in call order (each is greater than every earlier one), hence no
id is returned twice, also after its context was destroyed. -/
theorem C10_context_ids_strictly_increasing (ops : List ContextsOp) :
    ((Contexts.new.runOps ops).2).Pairwise (fun a b => a < b)
      ∧ ((Contexts.new.runOps ops).2).Nodup := by
  have h := Contexts.runOps_pairwise ops Contexts.new
  exact ⟨h, h.imp (fun hab => Nat.ne_of_lt hab)⟩

end Contexts

section SendMessage
open UseWorker

end SendMessage

section Dispatcher
open MakeWorker UseWorker

theorem lookupKey_eq_none {β : Type} (key : Nat) (obj : List (Nat × β))
    (h : key ∉ obj.map Prod.fst) : lookupKey key obj = none := by
  induction obj with
  | nil => rfl
  | cons kv rest ih =>
    obtain ⟨k, v⟩ := kv
    simp only [List.map_cons, List.mem_cons, not_or] at h
    simp only [lookupKey]
    rw [if_neg (fun hk => h.1 hk.symm)]
    exact ih h.2

theorem deleteKey_eq_self {β : Type} (key : Nat) (obj : List (Nat × β))
    (h : key ∉ obj.map Prod.fst) : deleteKey key obj = obj := by
  unfold deleteKey
  rw [List.filter_eq_self]
  intro kv hkv
  have : kv.1 ≠ key := fun hk => h (hk ▸ List.mem_map_of_mem _ hkv)
  simpa using this

theorem mem_keys_assignKey {β : Type} (key : Nat) (v : β) (obj : List (Nat × β)) (k : Nat) :
    k ∈ (assignKey key v obj).map Prod.fst ↔ k = key ∨ k ∈ obj.map Prod.fst := by
  induction obj with
  | nil => simp [assignKey]
  | cons kv rest ih =>
    obtain ⟨k', w⟩ := kv
    simp only [assignKey]
    split
    · next hk => subst hk; simp
    · simp only [List.map_cons, List.mem_cons, ih]
      tauto

theorem mem_keys_deleteKey {β : Type} (key : Nat) (obj : List (Nat × β)) (k : Nat) :
    k ∈ (deleteKey key obj).map Prod.fst ↔ k ≠ key ∧ k ∈ obj.map Prod.fst := by
  unfold deleteKey
  simp only [List.mem_map, List.mem_filter, decide_eq_true_eq]
  constructor
  · rintro ⟨kv, ⟨hkv, hne⟩, rfl⟩
    exact ⟨hne, kv, hkv, rfl⟩
  · rintro ⟨hne, kv, hkv, rfl⟩
    exact ⟨kv, ⟨hkv, hne⟩, rfl⟩

/-- C1: the handle sends seven activity names; the one sent by the function
that `subscribeToWorkerPublicState` returns, `unsubscribeFromPublicState`, is
not a key of the worker-side registry (which has
`unsubscribeFromWorkerPublicState`), while the six others are keys. The
dispatcher answers that message with a `TypeError` reply, in every state,
and leaves its state as it was: no listener is removed. -/
theorem C1_unsubscribe_activity_is_not_a_handler_key (methods : Option Methods)
    (classes : Classes) (contextId : Nat) (listenerId : Option Nat) (callId : Nat) :
    (unsubscribeMessage contextId listenerId).activityName = some "unsubscribeFromPublicState"
      ∧ "unsubscribeFromPublicState" ∉ handlers.keys
      ∧ (∀ name ∈ outboundActivityNames, name ≠ some "unsubscribeFromPublicState" →
          ∃ n, name = some n ∧ n ∈ handlers.keys)
      ∧ (onmessage methods classes
          { unsubscribeMessage contextId listenerId with callId := some callId }).posted
          = [Reply.ofError (some callId) Val.typeError]
      ∧ (onmessage methods classes
          { unsubscribeMessage contextId listenerId with callId := some callId }).classes
          = classes := by
  refine ⟨rfl, by decide, by decide, ?_, ?_⟩
  · simp [onmessage, handlers.call, unsubscribeMessage, handlers.inherited, answer]
  · simp [onmessage, handlers.call, unsubscribeMessage, handlers.inherited]

/-- C2: the `subscribeToPublicState` handler reads `classes.contexts[contextId]`,
a property of the `Contexts` instance, where `callWorkerMethod` reads
`classes.contexts.contexts[contextId]`. So for every state and every context
id, live ones included, the message is answered with a `TypeError` reply and
no listener is registered. In the run shown a context is created (id 1, live),
the subscription to it is answered with the error, and two `setPublicState`
on it post nothing. -/
theorem C2_subscribe_is_answered_with_an_error (methods : Option Methods) (classes : Classes)
    (contextId : Nat) (callId : Option Nat) :
    (onmessage methods classes { subscribeMessage contextId with callId := callId }).posted
        = [Reply.ofError callId Val.typeError]
      ∧ (onmessage methods classes { subscribeMessage contextId with callId := callId }).classes
        = classes
      ∧ liveContexts (runWorker methods
          [WorkerEvent.message { createContextMessage with callId := some 0 },
           WorkerEvent.message { subscribeMessage 1 with callId := some 1 },
           WorkerEvent.setPublicState 1 (fun _ => Val.num 1),
           WorkerEvent.setPublicState 1 (fun _ => Val.num 2)]).1 = [1]
      ∧ (runWorker methods
          [WorkerEvent.message { createContextMessage with callId := some 0 },
           WorkerEvent.message { subscribeMessage 1 with callId := some 1 },
           WorkerEvent.setPublicState 1 (fun _ => Val.num 1),
           WorkerEvent.setPublicState 1 (fun _ => Val.num 2)]).2
        = [Reply.ofResult (some 0) (Val.num 1), Reply.ofError (some 1) Val.typeError] := by
  have hthrow : ∀ data : Request, data.activityName = some "subscribeToPublicState" →
      (handlers.call methods classes data).completion = Completion.throws Val.typeError
        ∧ (handlers.call methods classes data).classes = classes := by
    intro data hname
    simp only [handlers.call, hname, Option.getD_some]
    simp only [handlers.subscribeToPublicState, InstanceMember.state]
    cases classes.contexts.instanceProperty (propertyKey data.contextId) <;> simp
  have h := hthrow { subscribeMessage contextId with callId := callId } rfl
  refine ⟨?_, ?_, ?_, ?_⟩
  · simp only [onmessage, h.1, answer]
  · simp only [onmessage, h.2]
  · rfl
  · rfl

theorem ExtendedWorker.runOps_lt {K : Type} (ops : List (SendOp K)) :
    ∀ w : ExtendedWorker K, (∀ l ∈ w.listeners, l.1 < w.nextCallId) →
      ∀ l ∈ (w.runOps ops).1.listeners, l.1 < (w.runOps ops).1.nextCallId := by
  induction ops with
  | nil => intro w h; simpa [ExtendedWorker.runOps] using h
  | cons op ops ih =>
    intro w h
    cases op with
    | send message cb =>
      simp only [ExtendedWorker.runOps]
      apply ih
      intro l hl
      simp only [ExtendedWorker.sendMessage] at hl ⊢
      rcases List.mem_append.1 hl with h' | h'
      · exact Nat.lt_succ_of_lt (h l h')
      · simp only [List.mem_singleton] at h'
        subst h'
        exact Nat.lt_succ_self _
    | unsubscribe callId =>
      simp only [ExtendedWorker.runOps]
      apply ih
      intro l hl
      exact h l ((List.filter_sublist _).subset hl)

/-- A promisified request on a handle whose listener keys are below the
counter: the reply that carries its callId settles its promise, once. -/
theorem ExtendedWorker.receive_own_reply (w : ExtendedWorker Unit) (message : Request)
    (hlt : ∀ l ∈ w.listeners, l.1 < w.nextCallId) (result error : Val) :
    ((w.sendMessagePromisified message).1.receive
        { callId := some w.nextCallId, result := result, error := error }).2
      = [(w.nextCallId, promisifiedCallback error result)] := by
  simp only [ExtendedWorker.sendMessagePromisified, ExtendedWorker.sendMessage,
    ExtendedWorker.receive, List.filter_append]
  have h0 : w.listeners.filter (fun l => decide (l.1 = w.nextCallId)) = [] := by
    rw [List.filter_eq_nil_iff]
    intro l hl
    have := hlt l hl
    simp only [decide_eq_true_eq]
    omega
  rw [h0]
  simp

end Dispatcher

section Facade
open AutoWorkerJs

/-- C4: `executeAll` does not survive a func that throws synchronously. With
the queue `throwingFirst` the loop ends at the first task: the func of the
second task is never called, the reject of the first is never called, the
queue keeps both tasks and `executeAll` rejects. The same happens through the
façade: `do('nope')` and `do('add', 2, 3)` are queued, `create` gets a handle
without `nope`; only task 0 is called, nothing is settled, the queue is
kept. With a first func that returns a rejecting promise (`rejectingFirst`)
both funcs are called, the first task is rejected and the queue is emptied. -/
theorem C4_synchronous_throw_aborts_the_flush :
    (throwingFirst.executeAll ()).events = [Event.invoked 0]
      ∧ (throwingFirst.executeAll ()).ending = Ending.rejected (Val.str "boom")
      ∧ (throwingFirst.executeAll ()).queue.queue.map (fun t => t.id) = [0, 1]
      ∧ (AutoWorker.run [Step.doCall "nope" [], Step.doCall "add" [Val.num 2, Val.num 3],
          Step.createStart, Step.createResume adder, Step.settle 0, Step.settle 1,
          Step.flushDone]).log = [Event.invoked 0]
      ∧ (AutoWorker.run [Step.doCall "nope" [], Step.doCall "add" [Val.num 2, Val.num 3],
          Step.createStart, Step.createResume adder, Step.settle 0, Step.settle 1,
          Step.flushDone]).queue.queue.map (fun t => t.id) = [0, 1]
      ∧ (rejectingFirst.executeAll ()).events
          = [Event.invoked 0, Event.invoked 1, Event.rejected 0 (Val.str "boom"),
             Event.resolved 1 (Val.num 1)]
      ∧ (rejectingFirst.executeAll ()).queue.queue.map (fun t => t.id) = [] := by
  refine ⟨rfl, rfl, rfl, rfl, rfl, rfl, rfl⟩

/-- C3 as stated fails: a `do` is queued, `create` gets its handle and
`executeAll` calls the func of task 0; `destroy` runs before the promises of
the flush have settled, the queue still holds the task and `rejectAll`
rejects it. Task 0 is both flushed and rejected. -/
theorem C3_counterexample_flushed_then_rejected :
    (AutoWorker.run [Step.doCall "add" [Val.num 2, Val.num 3], Step.createStart,
        Step.createResume adder, Step.destroy Val.undefined]).log
        = [Event.invoked 0, Event.rejectedAll 0 defaultRejectMessage, Event.destroyContext]
      ∧ 0 ∈ flushed (AutoWorker.run [Step.doCall "add" [Val.num 2, Val.num 3],
          Step.createStart, Step.createResume adder, Step.destroy Val.undefined]).log
      ∧ 0 ∈ rejectedByRejectAll (AutoWorker.run [Step.doCall "add" [Val.num 2, Val.num 3],
          Step.createStart, Step.createResume adder, Step.destroy Val.undefined]).log := by
  refine ⟨rfl, ?_, ?_⟩ <;> decide

/-- C5 as stated fails. After `destroy`, a `create` fails with the error, but
it has assigned `workerMethods` first: the façade is ready and a later `do`
calls the handle directly. And a `destroy` that runs while `create` is
awaiting the flush does not make that `create` fail. -/
theorem C5_counterexample_ready_after_failed_create :
    (AutoWorker.run [Step.destroy Val.undefined, Step.createStart,
        Step.createResume adder]).log = [Event.createFailed]
      ∧ (AutoWorker.run [Step.destroy Val.undefined, Step.createStart,
          Step.createResume adder]).isWorkerReady = true
      ∧ (AutoWorker.run [Step.destroy Val.undefined, Step.createStart,
          Step.createResume adder, Step.doCall "add" [Val.num 2, Val.num 3]]).log
        = [Event.createFailed, Event.called "add" [Val.num 2, Val.num 3]]
      ∧ (AutoWorker.run [Step.doCall "add" [Val.num 2, Val.num 3], Step.createStart,
          Step.createResume adder, Step.destroy Val.undefined, Step.settle 0,
          Step.flushDone]).log
        = [Event.invoked 0, Event.rejectedAll 0 defaultRejectMessage, Event.destroyContext,
           Event.resolved 0 (Val.num 5)] := by
  refine ⟨rfl, rfl, rfl, rfl⟩

theorem flushed_append (l1 l2 : List Event) : flushed (l1 ++ l2) = flushed l1 ++ flushed l2 := by
  simp [flushed, List.filterMap_append]

theorem rejectedByRejectAll_append (l1 l2 : List Event) :
    rejectedByRejectAll (l1 ++ l2) = rejectedByRejectAll l1 ++ rejectedByRejectAll l2 := by
  simp [rejectedByRejectAll, List.filterMap_append]

theorem flushed_wiring (task : Nat) (p : Fate) : flushed (wiring task p) = [] := by
  cases p <;> rfl

theorem rejectedByRejectAll_wiring (task : Nat) (p : Fate) :
    rejectedByRejectAll (wiring task p) = [] := by
  cases p <;> rfl

theorem flushed_map_invoked (l : List Nat) : flushed (l.map Event.invoked) = l := by
  induction l with
  | nil => rfl
  | cons t l ih => simpa [flushed] using ih

theorem rejectedByRejectAll_map_invoked (l : List Nat) :
    rejectedByRejectAll (l.map Event.invoked) = [] := by
  simp [rejectedByRejectAll]

theorem flushed_rejectAll {E : Type} (q : AsyncQueue E) (reason : Val) :
    flushed (q.rejectAll reason) = [] := by
  simp [AsyncQueue.rejectAll, flushed]

theorem settleIn_events (task : Nat) (flights : List Flight) :
    flushed (settleIn task flights).2 = [] ∧ rejectedByRejectAll (settleIn task flights).2 = [] := by
  induction flights with
  | nil => exact ⟨rfl, rfl⟩
  | cons f rest ih =>
    unfold settleIn
    split
    · exact ⟨flushed_wiring _ _, rejectedByRejectAll_wiring _ _⟩
    · exact ih

/-- What one step adds to the log: once the flag is cleared it stays cleared
and no func is called; while it is set, a step either keeps it set and calls
no reject through `rejectAll`, or clears it and calls no func. -/
theorem AutoWorker.step_log (a : AutoWorker) (s : Step) :
    ∃ ev, (a.step s).log = a.log ++ ev
      ∧ (a.isWorkerStillRelevant = false →
          (a.step s).isWorkerStillRelevant = false ∧ flushed ev = [])
      ∧ (a.isWorkerStillRelevant = true →
          ((a.step s).isWorkerStillRelevant = true ∧ rejectedByRejectAll ev = [])
            ∨ ((a.step s).isWorkerStillRelevant = false ∧ flushed ev = [])) := by
  cases s with
  | doCall methodName args =>
    cases hw : a.workerMethods with
    | none =>
      refine ⟨[], ?_, ?_, ?_⟩ <;> simp [AutoWorker.step, hw, flushed, rejectedByRejectAll]
    | some h =>
      refine ⟨[Event.called methodName args], ?_, ?_, ?_⟩ <;>
        simp [AutoWorker.step, hw, flushed, rejectedByRejectAll]
  | createStart =>
    refine ⟨[], ?_, ?_, ?_⟩ <;> simp [AutoWorker.step, flushed, rejectedByRejectAll]
  | createResume h =>
    by_cases hc : a.creating = 0
    · refine ⟨[], ?_, ?_, ?_⟩ <;> simp [AutoWorker.step, hc, flushed, rejectedByRejectAll]
    · cases hr : a.isWorkerStillRelevant with
      | true =>
        refine ⟨(executeLoop (some h) a.queue.queue).invoked.map Event.invoked, ?_, ?_, ?_⟩
        · simp [AutoWorker.step, hc, hr]
        · intro hf; exact Bool.noConfusion hf
        · intro _
          refine Or.inl ⟨?_, rejectedByRejectAll_map_invoked _⟩
          simp [AutoWorker.step, hc, hr]
      | false =>
        refine ⟨[Event.createFailed], ?_, ?_, ?_⟩
        · simp [AutoWorker.step, hc, hr]
        · intro _
          refine ⟨?_, rfl⟩
          simp [AutoWorker.step, hc, hr]
        · intro hf; exact Bool.noConfusion hf
  | createAbort =>
    refine ⟨[], ?_, ?_, ?_⟩ <;> simp [AutoWorker.step, flushed, rejectedByRejectAll]
  | settle task =>
    refine ⟨(settleIn task a.flights).2, ?_, ?_, ?_⟩
    · simp [AutoWorker.step]
    · intro hf
      exact ⟨by simpa [AutoWorker.step] using hf, (settleIn_events task a.flights).1⟩
    · intro ht
      exact Or.inl ⟨by simpa [AutoWorker.step] using ht, (settleIn_events task a.flights).2⟩
  | flushDone =>
    refine ⟨[], ?_, ?_, ?_⟩ <;>
      (simp only [AutoWorker.step]; cases completeIn a.flights <;>
        simp [flushed, rejectedByRejectAll])
  | destroy tasksRejectMessage =>
    refine ⟨a.queue.rejectAll
        (if tasksRejectMessage.truthy then tasksRejectMessage else defaultRejectMessage)
      ++ (match a.workerMethods with
         | some _ => [Event.destroyContext]
         | none => []), ?_, ?_, ?_⟩
    · simp [AutoWorker.step, List.append_assoc]
    · intro _
      refine ⟨by simp [AutoWorker.step], ?_⟩
      rw [flushed_append, flushed_rejectAll]
      cases a.workerMethods <;> rfl
    · intro _
      refine Or.inr ⟨by simp [AutoWorker.step], ?_⟩
      rw [flushed_append, flushed_rejectAll]
      cases a.workerMethods <;> rfl

/-- Once the flag is cleared, no sequence of steps sets it or calls a func. -/
theorem AutoWorker.after_destroy (steps : List Step) :
    ∀ a : AutoWorker, a.isWorkerStillRelevant = false →
      (steps.foldl AutoWorker.step a).isWorkerStillRelevant = false
        ∧ flushed (steps.foldl AutoWorker.step a).log = flushed a.log := by
  induction steps with
  | nil => intro a h; exact ⟨h, rfl⟩
  | cons s steps ih =>
    intro a h
    obtain ⟨ev, hlog, hfalse, _⟩ := AutoWorker.step_log a s
    obtain ⟨hflag, hev⟩ := hfalse h
    obtain ⟨h1, h2⟩ := ih (a.step s) hflag
    refine ⟨h1, ?_⟩
    rw [List.foldl_cons, h2, hlog, flushed_append, hev, List.append_nil]

/-- C3, amended: in every state a façade reaches, under any interleaving of
the steps of `do`, `create` and `destroy`, the log of calls splits in two:
a first part in which `rejectAll` rejects nothing, then a part in which
`executeAll` calls no func. So no task is flushed after it was rejected, and
from the first `destroy` on no func is called at all. -/
theorem C3_no_task_is_flushed_after_it_was_rejected (steps : List Step) :
    ∃ pre post, (AutoWorker.run steps).log = pre ++ post
      ∧ rejectedByRejectAll pre = [] ∧ flushed post = [] := by
  have key : ∃ pre post, (AutoWorker.run steps).log = pre ++ post
      ∧ rejectedByRejectAll pre = [] ∧ flushed post = []
      ∧ ((AutoWorker.run steps).isWorkerStillRelevant = true → post = []) := by
    induction steps using List.reverseRecOn with
    | nil => exact ⟨[], [], rfl, rfl, rfl, fun _ => rfl⟩
    | append_singleton steps s ih =>
      obtain ⟨pre, post, hlog, hpre, hpost, hrel⟩ := ih
      have hrun : AutoWorker.run (steps ++ [s]) = (AutoWorker.run steps).step s := by
        simp [AutoWorker.run, List.foldl_append]
      rw [hrun]
      obtain ⟨ev, hev, hfalse, htrue⟩ := AutoWorker.step_log (AutoWorker.run steps) s
      cases hflag : (AutoWorker.run steps).isWorkerStillRelevant with
      | false =>
        obtain ⟨h1, h2⟩ := hfalse hflag
        refine ⟨pre, post ++ ev, ?_, hpre, ?_, ?_⟩
        · rw [hev, hlog, List.append_assoc]
        · rw [flushed_append, hpost, h2]; rfl
        · intro ht; rw [h1] at ht; exact Bool.noConfusion ht
      | true =>
        have hnil := hrel hflag
        subst hnil
        rw [List.append_nil] at hlog
        rcases htrue hflag with ⟨_, h2⟩ | ⟨h1, h2⟩
        · refine ⟨pre ++ ev, [], ?_, ?_, rfl, fun _ => rfl⟩
          · rw [hev, hlog, List.append_nil]
          · rw [rejectedByRejectAll_append, hpre, h2]; rfl
        · refine ⟨pre, ev, ?_, hpre, h2, ?_⟩
          · rw [hev, hlog]
          · intro ht; rw [h1] at ht; exact Bool.noConfusion ht
  obtain ⟨pre, post, h1, h2, h3, _⟩ := key
  exact ⟨pre, post, h1, h2, h3⟩

/-- C5, amended: when `destroy` has run before the `useWorker` of a `create`
resolves, that `create` throws the used-after-destroy error; it calls no func
(none is called from the `destroy` on, whatever follows), and it leaves the
queue and the flag as they were. It has assigned `workerMethods` before it
tests the flag, so `do` takes its direct branch afterwards. -/
theorem C5_create_after_destroy_fails_without_flush (s1 s2 s3 : List Step) (r : Val)
    (h : Handle)
    (hpending : 0 < (AutoWorker.run (s1 ++ Step.destroy r :: s2)).creating) :
    (AutoWorker.run (s1 ++ Step.destroy r :: s2 ++ [Step.createResume h])).log
        = (AutoWorker.run (s1 ++ Step.destroy r :: s2)).log ++ [Event.createFailed]
      ∧ (AutoWorker.run (s1 ++ Step.destroy r :: s2 ++ [Step.createResume h])).isWorkerStillRelevant
        = false
      ∧ (AutoWorker.run (s1 ++ Step.destroy r :: s2 ++ [Step.createResume h])).queue.queue.map
          (fun t => t.id)
        = (AutoWorker.run (s1 ++ Step.destroy r :: s2)).queue.queue.map (fun t => t.id)
      ∧ (AutoWorker.run (s1 ++ Step.destroy r :: s2 ++ [Step.createResume h])).isWorkerReady
        = true
      ∧ flushed (AutoWorker.run (s1 ++ Step.destroy r :: s2 ++ Step.createResume h :: s3)).log
        = flushed (AutoWorker.run s1).log := by
  have hd : ((AutoWorker.run s1).step (Step.destroy r)).isWorkerStillRelevant = false := by
    simp [AutoWorker.step]
  have hdlog : flushed ((AutoWorker.run s1).step (Step.destroy r)).log
      = flushed (AutoWorker.run s1).log := by
    obtain ⟨ev, hev, hfalse, htrue⟩ := AutoWorker.step_log (AutoWorker.run s1) (Step.destroy r)
    rw [hev, flushed_append]
    cases hflag : (AutoWorker.run s1).isWorkerStillRelevant with
    | false => rw [(hfalse hflag).2, List.append_nil]
    | true =>
      rcases htrue hflag with ⟨h1, _⟩ | ⟨_, h2⟩
      · rw [hd] at h1; exact Bool.noConfusion h1
      · rw [h2, List.append_nil]
  have hrun : ∀ rest : List Step, AutoWorker.run (s1 ++ Step.destroy r :: rest)
      = rest.foldl AutoWorker.step ((AutoWorker.run s1).step (Step.destroy r)) := by
    intro rest
    simp [AutoWorker.run, List.foldl_append]
  have hflag : (AutoWorker.run (s1 ++ Step.destroy r :: s2)).isWorkerStillRelevant = false := by
    rw [hrun]; exact (AutoWorker.after_destroy s2 _ hd).1
  have hstep : AutoWorker.run (s1 ++ Step.destroy r :: s2 ++ [Step.createResume h])
      = (AutoWorker.run (s1 ++ Step.destroy r :: s2)).step (Step.createResume h) := by
    simp [AutoWorker.run, List.foldl_append]
  have hne : ¬ (AutoWorker.run (s1 ++ Step.destroy r :: s2)).creating = 0 := by omega
  refine ⟨?_, ?_, ?_, ?_, ?_⟩
  · rw [hstep]; simp [AutoWorker.step, hne, hflag]
  · rw [hstep]; simp [AutoWorker.step, hne, hflag]
  · rw [hstep]; simp [AutoWorker.step, hne, hflag]
  · rw [hstep]; simp [AutoWorker.step, hne, hflag, AutoWorker.isWorkerReady]
  · have := hrun (s2 ++ Step.createResume h :: s3)
    rw [show s1 ++ Step.destroy r :: s2 ++ Step.createResume h :: s3
        = s1 ++ Step.destroy r :: (s2 ++ Step.createResume h :: s3) by simp, this,
      (AutoWorker.after_destroy _ _ hd).2, hdlog]

/-- C5, amended, at a concrete input: `destroy()`, then `create()` whose
`useWorker` resolves with the handle `adder`. -/
theorem C5_create_after_destroy_witness :
    0 < (AutoWorker.run ([] ++ Step.destroy Val.undefined :: [Step.createStart])).creating
      ∧ (AutoWorker.run ([] ++ Step.destroy Val.undefined :: [Step.createStart]
          ++ [Step.createResume adder])).log
        = (AutoWorker.run ([] ++ Step.destroy Val.undefined :: [Step.createStart])).log
          ++ [Event.createFailed] :=
  ⟨by decide,
    (C5_create_after_destroy_fails_without_flush [] [Step.createStart] [] Val.undefined adder
      (by decide)).1⟩

end Facade

section PublishedState
open MakeWorker

theorem assignKey_of_not_mem {β : Type} (key : Nat) (v : β) (obj : List (Nat × β))
    (h : key ∉ obj.map Prod.fst) : assignKey key v obj = obj ++ [(key, v)] := by
  induction obj with
  | nil => rfl
  | cons kv rest ih =>
    obtain ⟨k, w⟩ := kv
    simp only [List.map_cons, List.mem_cons, not_or] at h
    simp only [assignKey]
    rw [if_neg (fun hk => h.1 hk.symm), ih h.2]
    rfl

theorem deleteKey_deleteKey {β : Type} (key : Nat) (obj : List (Nat × β)) :
    deleteKey key (deleteKey key obj) = deleteKey key obj := by
  simp [deleteKey, List.filter_filter]

theorem lookupKey_deleteKey_ne {β : Type} (key k : Nat) (obj : List (Nat × β)) (h : k ≠ key) :
    lookupKey k (deleteKey key obj) = lookupKey k obj := by
  induction obj with
  | nil => rfl
  | cons kv rest ih =>
    obtain ⟨k', w⟩ := kv
    by_cases hk : k' = key
    · subst hk
      have hne : ¬ k' = k := fun hh => h hh.symm
      simp only [deleteKey, lookupKey, if_neg hne] at ih ⊢
      rw [List.filter_cons_of_neg (by simp)]
      exact ih
    · simp only [deleteKey, lookupKey] at ih ⊢
      rw [List.filter_cons_of_pos (by simpa using hk)]
      simp only [lookupKey, ih]

theorem lookupKey_deleteKey_self {β : Type} (key : Nat) (obj : List (Nat × β)) :
    lookupKey key (deleteKey key obj) = none := by
  apply lookupKey_eq_none
  rw [mem_keys_deleteKey]
  exact fun h => h.1 rfl

/-- C16: `State.removePublicStateListener` is idempotent. Removing an id a
second time returns as the first time and leaves the state as the first
removal left it; a removal changes neither the published value nor the
counter, removes the entry of that id and keeps the entry of every other id. -/
theorem C16_removePublicStateListener_is_idempotent {L : Type} (s : State L)
    (listenerId : Option Nat) :
    ((s.removePublicStateListener listenerId).1.removePublicStateListener listenerId).1.listeners
        = (s.removePublicStateListener listenerId).1.listeners
      ∧ ((s.removePublicStateListener listenerId).1.removePublicStateListener listenerId).2
        = (s.removePublicStateListener listenerId).2
      ∧ (s.removePublicStateListener listenerId).1.publicState = s.publicState
      ∧ (s.removePublicStateListener listenerId).1.listenerId = s.listenerId
      ∧ (∀ k, listenerId = some k →
          lookupKey k (s.removePublicStateListener listenerId).1.listeners = none)
      ∧ (∀ k, listenerId ≠ some k →
          lookupKey k (s.removePublicStateListener listenerId).1.listeners
            = lookupKey k s.listeners) := by
  cases listenerId with
  | none => simp [State.removePublicStateListener]
  | some id =>
    refine ⟨?_, rfl, rfl, rfl, ?_, ?_⟩
    · simp [State.removePublicStateListener, deleteKey_deleteKey]
    · intro k hk
      injection hk with hk
      subst hk
      simp [State.removePublicStateListener, lookupKey_deleteKey_self]
    · intro k hk
      have hne : k ≠ id := fun h => hk (by rw [h])
      simp [State.removePublicStateListener, lookupKey_deleteKey_ne _ _ _ hne]

/-- C17 as stated fails: on a new `State`, which has no listener, removing
listener id 5 returns `true`. -/
theorem C17_counterexample_absent_id_returns_true :
    ((State.new : State Unit).removePublicStateListener (some 5)).2 = true
      ∧ lookupKey 5 (State.new : State Unit).listeners = none := by
  exact ⟨rfl, rfl⟩

/-- C17, amended: `State.removePublicStateListener` returns `true` for every
id, whether a listener was registered under it or not (`delete` reports
`true` for a property that is absent); afterwards no listener is registered
under that id. -/
theorem C17_removePublicStateListener_always_returns_true {L : Type} (s : State L)
    (listenerId : Nat) :
    (s.removePublicStateListener (some listenerId)).2 = true
      ∧ lookupKey listenerId (s.removePublicStateListener (some listenerId)).1.listeners
        = none := by
  exact ⟨rfl, by simp [State.removePublicStateListener, lookupKey_deleteKey_self]⟩

end PublishedState

section Destroy
open AutoWorkerJs

/-- C15 as stated fails: one `do` is queued and `destroy('')` is called; the
reject of the task is called with the default message, not with the reason
that was supplied. -/
theorem C15_counterexample_falsy_reason_is_replaced :
    (AutoWorker.run [Step.doCall "add" [Val.num 2, Val.num 3], Step.destroy (Val.str "")]).log
      = [Event.rejectedAll 0 defaultRejectMessage] := by
  rfl

/-- C15, amended: in every state of a façade and for every reason,
`destroy(reason)` calls the reject of each queued task, in queue order, with
that reason when it is truthy and with the default message when it is falsy
(`undefined` when none is given, but also `''`, `0`, `null`, `false`); it
calls no func, clears the flag, leaves the queue as it is, and calls the
`destroyContext` of the handle exactly when `workerMethods` is set. -/
theorem C15_destroy_rejects_every_queued_task (a : AutoWorker) (reason : Val) :
    (a.step (Step.destroy reason)).log
        = a.log
          ++ a.queue.queue.map (fun t => Event.rejectedAll t.id
              (if reason.truthy then reason else defaultRejectMessage))
          ++ (if a.workerMethods.isSome then [Event.destroyContext] else [])
      ∧ flushed (a.step (Step.destroy reason)).log = flushed a.log
      ∧ (a.step (Step.destroy reason)).isWorkerStillRelevant = false
      ∧ (a.step (Step.destroy reason)).queue.queue.map (fun t => t.id)
        = a.queue.queue.map (fun t => t.id)
      ∧ (a.step (Step.destroy Val.undefined)).log
        = a.log ++ a.queue.queue.map (fun t => Event.rejectedAll t.id defaultRejectMessage)
          ++ (if a.workerMethods.isSome then [Event.destroyContext] else []) := by
  have hflushed : ∀ r : Val, flushed (a.step (Step.destroy r)).log = flushed a.log := by
    intro r
    obtain ⟨ev, hev, hfalse, htrue⟩ := AutoWorker.step_log a (Step.destroy r)
    rw [hev, flushed_append]
    have hd : (a.step (Step.destroy r)).isWorkerStillRelevant = false := by
      simp [AutoWorker.step]
    cases hflag : a.isWorkerStillRelevant with
    | false => rw [(hfalse hflag).2, List.append_nil]
    | true =>
      rcases htrue hflag with ⟨h1, _⟩ | ⟨_, h2⟩
      · rw [hd] at h1; exact Bool.noConfusion h1
      · rw [h2, List.append_nil]
  refine ⟨?_, hflushed reason, ?_, ?_, ?_⟩
  · cases hw : a.workerMethods <;> simp [AutoWorker.step, AsyncQueue.rejectAll, hw]
  · simp [AutoWorker.step]
  · simp [AutoWorker.step]
  · cases hw : a.workerMethods <;>
      simp [AutoWorker.step, AsyncQueue.rejectAll, hw, Val.truthy]

end Destroy

section Pool
open UseWorker

theorem lookupName_deleteName_ne {β : Type} (key k : String) (obj : List (String × β))
    (h : k ≠ key) : lookupName k (deleteName key obj) = lookupName k obj := by
  induction obj with
  | nil => rfl
  | cons kv rest ih =>
    obtain ⟨k', w⟩ := kv
    by_cases hk : k' = key
    · subst hk
      have hne : ¬ k' = k := fun hh => h hh.symm
      simp only [deleteName, lookupName, if_neg hne] at ih ⊢
      rw [List.filter_cons_of_neg (by simp)]
      exact ih
    · simp only [deleteName, lookupName] at ih ⊢
      rw [List.filter_cons_of_pos (by simpa using hk)]
      simp only [lookupName, ih]

theorem lookupName_deleteName_self {β : Type} (key : String) (obj : List (String × β)) :
    lookupName key (deleteName key obj) = none := by
  induction obj with
  | nil => rfl
  | cons kv rest ih =>
    obtain ⟨k', w⟩ := kv
    by_cases hk : k' = key
    · simp only [deleteName] at ih ⊢
      rw [List.filter_cons_of_neg (by simpa using hk)]
      exact ih
    · simp only [deleteName] at ih ⊢
      rw [List.filter_cons_of_pos (by simpa using hk)]
      simp only [lookupName, if_neg hk, ih]

/-- C12: `WorkersPool.terminate(identity, callback)`. When the identity is in
the permanent set the pool is left as it is and the callback is not called,
so `checkOut` gives afterwards what it gave before. Otherwise the callback is
called once, the identity has no memo entry afterwards, the entry of every
other identity is as before, and the permanent set and the handle counter
are unchanged. -/
theorem C12_terminate_spares_permanent_and_removes_one_entry (pool : WorkersPool)
    (workerPath : String) :
    (workerPath ∈ pool.permanentWorkers →
        pool.terminate workerPath = (pool, 0)
          ∧ (pool.terminate workerPath).1.checkOut workerPath = pool.checkOut workerPath)
      ∧ (workerPath ∉ pool.permanentWorkers →
          (pool.terminate workerPath).2 = 1
            ∧ lookupName workerPath (pool.terminate workerPath).1.workers = none
            ∧ (∀ other, other ≠ workerPath →
                lookupName other (pool.terminate workerPath).1.workers
                  = lookupName other pool.workers)
            ∧ (pool.terminate workerPath).1.permanentWorkers = pool.permanentWorkers
            ∧ (pool.terminate workerPath).1.created = pool.created) := by
  constructor
  · intro h
    simp [WorkersPool.terminate, h]
  · intro h
    have ht : pool.terminate workerPath
        = ({ pool with workers := deleteName workerPath pool.workers }, 1) := by
      simp [WorkersPool.terminate, h]
    rw [ht]
    exact ⟨rfl, lookupName_deleteName_self _ _,
      fun other ho => lookupName_deleteName_ne _ _ _ ho, rfl, rfl⟩

end Pool

section Replies
open MakeWorker

end Replies

section Teardown
open MakeWorker UseWorker

theorem keys_assignKey_of_mem {β : Type} (key : Nat) (v : β) (obj : List (Nat × β))
    (h : key ∈ obj.map Prod.fst) : (assignKey key v obj).map Prod.fst = obj.map Prod.fst := by
  induction obj with
  | nil => simp at h
  | cons kv rest ih =>
    obtain ⟨k, w⟩ := kv
    simp only [assignKey]
    split
    · rfl
    · next hk =>
      simp only [List.map_cons, List.mem_cons] at h ⊢
      rcases h with h | h
      · exact absurd h.symm hk
      · rw [ih h]

theorem mem_keys_of_lookupKey {β : Type} (key : Nat) (obj : List (Nat × β)) (v : β)
    (h : lookupKey key obj = some v) : key ∈ obj.map Prod.fst := by
  by_contra hnot
  rw [lookupKey_eq_none _ _ hnot] at h
  exact Option.noConfusion h

theorem handlers_call_ascending (methods : Option Methods) (classes : Classes) (data : Request)
    (hc : Ascending classes) : Ascending (handlers.call methods classes data).classes := by
  unfold handlers.call
  simp only
  split_ifs
  · obtain ⟨hp, hle⟩ := hc
    simp only [liveContexts] at hp hle
    have hnot : classes.contexts.nextContextId + 1 ∉ classes.contexts.contexts.map Prod.fst := by
      intro hmem
      have := hle _ hmem
      omega
    have hkeys : (assignKey (classes.contexts.nextContextId + 1)
        ({ state := some State.new, subWorkers := some (classes.contexts.nextContextId + 1) }
          : Context)
        (assignKey (classes.contexts.nextContextId + 1)
          ({ state := none, subWorkers := none } : Context)
          classes.contexts.contexts)).map Prod.fst
        = classes.contexts.contexts.map Prod.fst ++ [classes.contexts.nextContextId + 1] := by
      rw [keys_assignKey_of_mem _ _ _ ((mem_keys_assignKey _ _ _ _).2 (Or.inl rfl)),
        assignKey_of_not_mem _ _ _ hnot]
      simp
    simp only [Ascending, liveContexts, handlers.createContext, Contexts.createContext,
      Contexts.extendContext, hkeys]
    constructor
    · rw [List.pairwise_append]
      refine ⟨hp, by simp, ?_⟩
      intro a ha b hb
      simp only [List.mem_singleton] at hb
      subst hb
      exact Nat.lt_succ_of_le (hle a ha)
    · intro k hk
      rcases List.mem_append.1 hk with h | h
      · exact Nat.le_succ_of_le (hle k h)
      · simp only [List.mem_singleton] at h
        exact Nat.le_of_eq h
  · obtain ⟨hp, hle⟩ := hc
    simp only [liveContexts] at hp hle
    cases hcid : data.contextId with
    | none =>
      simp only [Ascending, liveContexts, handlers.destroyContext, hcid,
        Contexts.destroyContext]
      exact ⟨hp, hle⟩
    | some k0 =>
      have hsub : (deleteKey k0 classes.contexts.contexts).Sublist classes.contexts.contexts :=
        List.filter_sublist _
      simp only [Ascending, liveContexts, handlers.destroyContext, hcid,
        Contexts.destroyContext]
      exact ⟨hp.sublist (hsub.map _), fun k hk => hle k ((hsub.map _).subset hk)⟩
  · unfold handlers.receiveSubWorkerMethodCallResult
    split
    · exact hc
    · split <;> exact hc
  · unfold handlers.subscribeToPublicState
    split
    · exact hc
    · split <;> exact hc
  · unfold handlers.unsubscribeFromWorkerPublicState
    split
    · exact hc
    · split <;> exact hc
  · exact hc
  · unfold handlers.callWorkerMethod
    simp only
    split
    · exact hc
    · split <;> exact hc
  · split <;> exact hc

theorem setPublicStateOf_ascending (classes : Classes) (contextId : Nat)
    (getNewState : Val → Val) (hc : Ascending classes) :
    Ascending (setPublicStateOf classes contextId getNewState).1 := by
  unfold setPublicStateOf
  split
  · exact hc
  · next context hfound =>
    split
    · exact hc
    · simp only [Ascending, liveContexts, State.setPublicState,
        keys_assignKey_of_mem _ _ _ (mem_keys_of_lookupKey _ _ _ hfound)]
      exact hc

theorem callSubWorkerOf_ascending (classes : Classes) (contextId : Nat)
    (workerPath methodName : String) (args : Val) (hc : Ascending classes) :
    Ascending (callSubWorkerOf classes contextId workerPath methodName args).1 := by
  unfold callSubWorkerOf
  split
  · exact hc
  · split
    · exact hc
    · split <;> exact hc

theorem runWorker_ascending (methods : Option Methods) (events : List WorkerEvent) :
    Ascending (runWorker methods events).1 := by
  unfold runWorker
  have key : ∀ (evs : List WorkerEvent) (acc : Classes × List Reply), Ascending acc.1 →
      Ascending (evs.foldl (fun acc ev =>
        let r := workerStep methods acc.1 ev
        (r.1, acc.2 ++ r.2)) acc).1 := by
    intro evs
    induction evs with
    | nil => intro acc h; exact h
    | cons ev evs ih =>
      intro acc h
      simp only [List.foldl_cons]
      apply ih
      cases ev with
      | message data => exact handlers_call_ascending methods acc.1 data h
      | setPublicState contextId getNewState =>
        exact setPublicStateOf_ascending acc.1 contextId getNewState h
      | callSubWorker contextId workerPath methodName args =>
        exact callSubWorkerOf_ascending acc.1 contextId workerPath methodName args h
  exact key events _ ⟨by simp [liveContexts, Classes.new, Contexts.new],
    by simp [liveContexts, Classes.new, Contexts.new]⟩

theorem length_deleteKey_of_mem {β : Type} (key : Nat) (obj : List (Nat × β))
    (hp : (obj.map Prod.fst).Pairwise (fun a b => a < b)) (h : key ∈ obj.map Prod.fst) :
    (deleteKey key obj).length = obj.length - 1 := by
  induction obj with
  | nil => simp at h
  | cons kv rest ih =>
    obtain ⟨k, w⟩ := kv
    simp only [List.map_cons, List.pairwise_cons] at hp
    by_cases hk : k = key
    · subst hk
      have hnot : k ∉ rest.map Prod.fst := fun hm => Nat.lt_irrefl _ (hp.1 k hm)
      have := deleteKey_eq_self k rest hnot
      simp only [deleteKey] at this ⊢
      rw [List.filter_cons_of_neg (by simp), this]
      simp
    · simp only [List.map_cons, List.mem_cons] at h
      have hrest : key ∈ rest.map Prod.fst := by
        rcases h with h | h
        · exact absurd h.symm hk
        · exact h
      have hlen : 0 < rest.length := by
        cases rest with
        | nil => simp at hrest
        | cons _ _ => simp
      have := ih hp.2 hrest
      simp only [deleteKey] at this ⊢
      rw [List.filter_cons_of_pos (by simpa using hk), List.length_cons, this,
        List.length_cons]
      omega

theorem keys_eq_singleton_of_length {β : Type} (key : Nat) (obj : List (Nat × β))
    (h : key ∈ obj.map Prod.fst) : obj.length - 1 = 0 ↔ obj.map Prod.fst = [key] := by
  cases obj with
  | nil => simp at h
  | cons kv rest =>
    cases rest with
    | nil =>
      simp only [List.map_cons, List.map_nil, List.mem_singleton] at h
      simp [h]
    | cons kv2 rest2 => simp

/-- A `destroyContext` request on a handle whose listener keys are below the
counter: the worker removes the context and replies with the number of
contexts left, and the promise resolves with that number. -/
theorem request_destroyContext (methods : Option Methods) (classes : Classes)
    (w : ExtendedWorker Unit) (hlt : ∀ l ∈ w.listeners, l.1 < w.nextCallId) (c : Nat) :
    (request methods classes w (destroyContextMessage c)).1.posted
        = [Reply.ofResult (some w.nextCallId)
            (Val.num (deleteKey c classes.contexts.contexts).length)]
      ∧ (request methods classes w (destroyContextMessage c)).1.classes.contexts.contexts
        = deleteKey c classes.contexts.contexts
      ∧ (request methods classes w (destroyContextMessage c)).2.2
        = [(w.nextCallId,
            Settlement.resolved (Val.num (deleteKey c classes.contexts.contexts).length))] := by
  have hrecv := ExtendedWorker.receive_own_reply w (destroyContextMessage c) hlt
    (Val.num (deleteKey c classes.contexts.contexts).length) Val.undefined
  have hposted : (onmessage methods classes
      { destroyContextMessage c with callId := some w.nextCallId }).posted
      = [Reply.ofResult (some w.nextCallId)
          (Val.num (deleteKey c classes.contexts.contexts).length)] := by
    simp [onmessage, handlers.call, destroyContextMessage, handlers.destroyContext,
      Contexts.destroyContext, answer]
  have hclasses : (onmessage methods classes
      { destroyContextMessage c with callId := some w.nextCallId }).classes.contexts.contexts
      = deleteKey c classes.contexts.contexts := by
    simp [onmessage, handlers.call, destroyContextMessage, handlers.destroyContext,
      Contexts.destroyContext]
  unfold request
  simp only [ExtendedWorker.sendMessagePromisified, ExtendedWorker.sendMessage] at hrecv ⊢
  dsimp only at hposted hclasses ⊢
  refine ⟨hposted, hclasses, ?_⟩
  rw [hposted]
  simp only [List.foldl_cons, List.foldl_nil, List.nil_append]
  simp only [Reply.ofResult] at hrecv ⊢
  rw [hrecv]
  rfl

/-- C11: teardown is counted per context. In every state a worker reaches and
on every handle, destroying a live context `c` makes the worker remove it and
reply with the number of contexts that are still live, one less than before;
the handle orders termination exactly when that number is 0, that is exactly
when `c` was the only live context. With two contexts created, destroying
the first orders no termination and destroying the second then does. -/
theorem C11_termination_is_ordered_iff_last_context (methods : Option Methods)
    (events : List WorkerEvent) (ops : List (SendOp Unit)) (c : Nat)
    (hlive : c ∈ liveContexts (runWorker methods events).1) :
    (request methods (runWorker methods events).1 (ExtendedWorker.new.runOps ops).1
        (destroyContextMessage c)).1.posted
        = [Reply.ofResult (some (ExtendedWorker.new.runOps ops).1.nextCallId)
            (Val.num ((liveContexts (runWorker methods events).1).length - 1 : Nat))]
      ∧ liveContexts (ExtendedWorker.destroyContext methods (runWorker methods events).1
          (ExtendedWorker.new.runOps ops).1 c).1
        = (liveContexts (runWorker methods events).1).filter (fun k => decide (k ≠ c))
      ∧ ((ExtendedWorker.destroyContext methods (runWorker methods events).1
            (ExtendedWorker.new.runOps ops).1 c).2 = true
          ↔ liveContexts (runWorker methods events).1 = [c])
      ∧ (ExtendedWorker.destroyContext methods (runWorker methods
          [WorkerEvent.message { createContextMessage with callId := some 0 },
           WorkerEvent.message { createContextMessage with callId := some 1 }]).1
          ExtendedWorker.new 1).2 = false
      ∧ (ExtendedWorker.destroyContext methods (runWorker methods
          [WorkerEvent.message { createContextMessage with callId := some 0 },
           WorkerEvent.message { createContextMessage with callId := some 1 },
           WorkerEvent.message { destroyContextMessage 1 with callId := some 2 }]).1
          ExtendedWorker.new 2).2 = true := by
  have hlt := ExtendedWorker.runOps_lt ops (ExtendedWorker.new : ExtendedWorker Unit)
    (by simp [ExtendedWorker.new])
  obtain ⟨hp, _⟩ := runWorker_ascending methods events
  generalize (ExtendedWorker.new.runOps ops).1 = w at hlt ⊢
  generalize (runWorker methods events).1 = classes at hlive hp ⊢
  simp only [liveContexts] at hlive hp ⊢
  obtain ⟨h1, h2, h3⟩ := request_destroyContext methods classes w hlt c
  have hlen := length_deleteKey_of_mem c classes.contexts.contexts hp hlive
  refine ⟨?_, ?_, ?_, rfl, rfl⟩
  · rw [h1, hlen, List.length_map]
  · simp only [ExtendedWorker.destroyContext, h2, deleteKey, List.filter_map]
    rfl
  · simp only [ExtendedWorker.destroyContext, h3, List.head?_cons, terminatesAfter, hlen]
    rw [← keys_eq_singleton_of_length c classes.contexts.contexts hlive]
    simp

/-- C11 at a concrete input: a worker with contexts 1 and 2 live, and a fresh
handle that destroys context 1. -/
theorem C11_termination_is_ordered_iff_last_context_witness :
    1 ∈ liveContexts (runWorker none
        [WorkerEvent.message { createContextMessage with callId := some 0 },
         WorkerEvent.message { createContextMessage with callId := some 1 }]).1
      ∧ (request none (runWorker none
          [WorkerEvent.message { createContextMessage with callId := some 0 },
           WorkerEvent.message { createContextMessage with callId := some 1 }]).1
          (ExtendedWorker.new.runOps []).1 (destroyContextMessage 1)).1.posted
        = [Reply.ofResult (some (ExtendedWorker.new.runOps ([] : List (SendOp Unit))).1.nextCallId)
            (Val.num ((liveContexts (runWorker none
              [WorkerEvent.message { createContextMessage with callId := some 0 },
               WorkerEvent.message { createContextMessage with callId := some 1 }]).1).length
              - 1 : Nat))] :=
  ⟨by decide,
    (C11_termination_is_ordered_iff_last_context none
      [WorkerEvent.message { createContextMessage with callId := some 0 },
       WorkerEvent.message { createContextMessage with callId := some 1 }] [] 1
      (by decide)).1⟩

end Teardown

section Proxies
open MakeWorker UseWorker

end Proxies

section Delegation
open MakeWorker UseWorker

/-- C19: `callSubWorkerMethod` does not destroy the context of the sub-handle
when the delegated method fails. The request asks for `double` on a worker
whose handle is `doubler`. With the argument `'x'` the promise of `double`
rejects: the method is called and one message with the error, the context id
and the request id is sent, but `subWorker.destroyContext()` is never called.
With the argument 21 the method is called, the context is destroyed, and one
message with the result 42 is sent. -/
theorem C19_failed_delegated_call_leaves_the_context :
    callSubWorkerMethod (fun _ => Acquired.resolves doubler)
        (Val.request "callSubWorkerMethod" 1 7 "b.js" "double"
          (Val.array (Val.str "x") Val.emptyArray))
        = [SubCallEvent.called "double" (Val.array (Val.str "x") Val.emptyArray),
           SubCallEvent.sent
             (subWorkerResultMessage (some "callSubWorkerMethod") (some 1) (some 7)
               Val.undefined (Val.str "not a number"))]
      ∧ callSubWorkerMethod (fun _ => Acquired.resolves doubler)
          (Val.request "callSubWorkerMethod" 1 7 "b.js" "double"
            (Val.array (Val.num 21) Val.emptyArray))
        = [SubCallEvent.called "double" (Val.array (Val.num 21) Val.emptyArray),
           SubCallEvent.destroyContext,
           SubCallEvent.sent
             (subWorkerResultMessage (some "callSubWorkerMethod") (some 1) (some 7)
               (Val.num 42) Val.undefined)] := by
  exact ⟨rfl, rfl⟩

/-- C20: the listener of `listenForRequest` throws on a message whose result
is `null`. The exported function `f` of `echoFirst`, called with `null`,
returns `null`; the dispatcher posts `{ callId, result: null }`; the listener
reads `res.requestName` of `null` and throws a `TypeError`. On every other
message it does not throw, and it calls the handler only with a request
object whose `requestName` and `contextId` are the ones it was registered
with. -/
theorem C20_listener_throws_on_null_result (requestName : String) (contextId : Nat)
    (data : Reply) :
    (onmessage (some echoFirst) Classes.new
        { callWorkerMethodMessage "f" 1 [Val.null] with callId := some 3 }).posted
        = [Reply.ofResult (some 3) Val.null]
      ∧ listenForRequestListener "callSubWorkerMethod" 1 (Reply.ofResult (some 3) Val.null)
        = ListenerOutcome.threw Val.typeError
      ∧ (data.result ≠ Val.null →
          ∀ e, listenForRequestListener requestName contextId data ≠ ListenerOutcome.threw e)
      ∧ (∀ res, listenForRequestListener requestName contextId data = ListenerOutcome.handled res →
          res = data.result
            ∧ ∃ requestId workerPath methodName args,
                res = Val.request requestName contextId requestId workerPath methodName args) := by
  refine ⟨rfl, rfl, ?_, ?_⟩
  · intro hnull e
    unfold listenForRequestListener
    split
    · simp
    · next h => exact absurd h hnull
    · split <;> simp
    · simp
  · intro res
    unfold listenForRequestListener
    split
    · simp
    · simp
    · next name context requestId workerPath methodName args h =>
      split
      · next hmatch =>
        intro hres
        injection hres with hres
        subst hres
        obtain ⟨h1, h2⟩ := hmatch
        subst h1 h2
        exact ⟨h.symm, requestId, workerPath, methodName, args, rfl⟩
      · simp
    · simp

end Delegation
